import Mathlib
set_option maxHeartbeats 1000000

/-!
Verification development for the G-code merge engine of
`PostProcessAll.py` (Fusion360-Batch-Post).  The split-setup part of
`PostProcessSetup` is embedded shallowly: each Python regex is realised
as a hand-written character-level parser with the same backtracking
behaviour, the mutable per-setup/per-group state becomes explicit state
records, file writes become lists of written chunks, and Python
exceptions become an explicit `exc` outcome.  Decimal number words are
modelled as rationals (the source parses fixed decimal notation).
-/

namespace PPA

/-! ### Character and digit helpers -/

def isDig (c : Char) : Bool := '0' ≤ c ∧ c ≤ '9'

/-- Maximal leading run of ASCII digits, returned with the rest. -/
def takeDigits (s : List Char) : List Char × List Char :=
  (s.takeWhile isDig, s.dropWhile isDig)

/-- Numeric value of a digit list (decimal). -/
def digitsVal (ds : List Char) : Nat :=
  ds.foldl (fun a c => a * 10 + (c.toNat - '0'.toNat)) 0

/-- Skip literal space characters (the regexes use a literal `' *'`). -/
def skipSpacesL (s : List Char) : List Char := s.dropWhile (· = ' ')

/-- Python `\s` on the ASCII range. -/
def isPySpace (c : Char) : Bool :=
  c = ' ' ∨ c = '\t' ∨ c = '\n' ∨ c = '\x0d' ∨ c = '\x0b' ∨ c = '\x0c'

/-! ### The `regBody` regex

`regBody` is `(?P<N>N[0-9]+ *)?(?P<line>(M(?P<M>[0-9]+) *)?(G(?P<G>[0-9]+) *)?
(T(?P<T>[0-9]+))?.+)` with `IGNORECASE | DOTALL`.  Matching is greedy; when the
optional code groups consume the whole string the engine backtracks by
un-matching the last-matched group so that `.+` can take at least one
character (the un-matched text starts with that group's letter, so no later
group can re-match it). -/

/-- Parse `<letter>[0-9]+` (case-insensitively) plus an optional run of
trailing spaces, as in the `N`/`M`/`G`/`T` groups of `regBody`.  Returns the
digit run, the number of trailing spaces eaten and the rest. -/
def parseCode (letter : Char) (sp : Bool) (s : List Char) :
    Option (List Char × Nat × List Char) :=
  match s with
  | [] => none
  | c :: rest =>
    if c.toUpper = letter then
      let (ds, r) := takeDigits rest
      if ds.isEmpty then none
      else
        if sp then some (ds, (r.takeWhile (· = ' ')).length, skipSpacesL r)
        else some (ds, 0, r)
    else none

structure BodyMatch where
  hasN : Bool
  mCode : Option Nat
  gCode : Option Nat
  tCode : Option Nat
  restLine : String
  deriving Repr, DecidableEq

/-- End-of-string backtracking of `regBody`: when the greedy code groups
consume the whole string, `.+` still needs one character, so the engine
gives back one trailing space of the last-matched group if it ate any,
else one digit if the digit run has at least two, else un-matches the
group entirely (its text starts with the group letter, which no later
group can re-match). -/
inductive CodeAdjust
  | keepFull
  | shorten
  | dropped
  deriving Repr, DecidableEq

def adjustOf (ds : List Char) (sp : Nat) : CodeAdjust :=
  if sp ≠ 0 then .keepFull
  else if 2 ≤ ds.length then .shorten
  else .dropped

/-- Value of a code group after end-of-string adjustment. -/
def adjCode (ds : List Char) (sp : Nat) : Option Nat :=
  match adjustOf ds sp with
  | .keepFull => some (digitsVal ds)
  | .shorten => some (digitsVal ds.dropLast)
  | .dropped => none

/-- Model of `regBody.match(s)`; `none` exactly when `s` is empty
(`.+` needs one character and all other groups are optional). -/
def regBodyMatch (s : String) : Option BodyMatch :=
  let cs := s.data
  let (nRes, s1) :=
    match parseCode 'N' true cs with
    | some (ds, sp, r) => (some (ds, sp), r)
    | none => (none, cs)
  let (mRes, s2) :=
    match parseCode 'M' true s1 with
    | some (ds, sp, r) => (some (ds, sp), r)
    | none => (none, s1)
  let (gRes, s3) :=
    match parseCode 'G' true s2 with
    | some (ds, sp, r) => (some (ds, sp), r)
    | none => (none, s2)
  let (tRes, s4) :=
    match parseCode 'T' false s3 with
    | some (ds, sp, r) => (some (ds, sp), r)
    | none => (none, s3)
  let val : Option (List Char × Nat) → Option Nat :=
    fun o => o.map (fun p => digitsVal p.1)
  if s4 ≠ [] then
    some ⟨nRes.isSome, val mRes, val gRes, val tRes, ⟨s1⟩⟩
  else
    match tRes with
    | some (ds, sp) =>
      some ⟨nRes.isSome, val mRes, val gRes, adjCode ds sp, ⟨s1⟩⟩
    | none =>
    match gRes with
    | some (ds, sp) =>
      some ⟨nRes.isSome, val mRes, adjCode ds sp, none, ⟨s1⟩⟩
    | none =>
    match mRes with
    | some (ds, sp) =>
      some ⟨nRes.isSome, adjCode ds sp, none, none, ⟨s1⟩⟩
    | none =>
    match nRes with
    | some (ds, sp) =>
      match adjustOf ds sp with
      | .keepFull => some ⟨true, none, none, none, " "⟩
      | .shorten => some ⟨true, none, none, none, ⟨[ds.getLast?.getD '0']⟩⟩
      | .dropped => some ⟨false, none, none, none, ⟨cs⟩⟩
    | none => none

/-- Model of `regToolComment = re.compile(r"\(T[0-9]+\s")` applied with
`.match` (anchored at the start, case-sensitive). -/
def toolCommentMatch (s : String) : Bool :=
  match s.data with
  | '(' :: 'T' :: rest =>
    let (ds, r) := takeDigits rest
    (!ds.isEmpty) &&
      (match r with
       | c :: _ => isPySpace c
       | [] => false)
  | _ => false

/-! ### Decimal numbers and the `regParseLine` regex -/

/-- Parse `[0-9]+(\.[0-9]*)?` as an exact rational, returning the rest. -/
def parseDecAux (s : List Char) : Option (ℚ × List Char) :=
  if (takeDigits s).1.isEmpty then none
  else
    match (takeDigits s).2 with
    | '.' :: r =>
      some ((digitsVal (takeDigits s).1 : ℚ)
              + (digitsVal (takeDigits r).1 : ℚ) / (10 : ℚ) ^ (takeDigits r).1.length,
            (takeDigits r).2)
    | _ => some ((digitsVal (takeDigits s).1 : ℚ), (takeDigits s).2)

/-- Parse `-?[0-9]+(\.[0-9]*)?` (the sign only when `neg` is set, as in the
`G` group of `regParseLine`, which has no `-?`). -/
def parseDec (neg : Bool) (s : List Char) : Option (ℚ × List Char) :=
  if neg then
    match s with
    | '-' :: r => (parseDecAux r).map (fun p => (-p.1, p.2))
    | _ => parseDecAux s
  else parseDecAux s

/-- A word `<letter><number>` of `regParseLine` (case-insensitive). -/
def parseWordQ (letter : Char) (neg : Bool) (s : List Char) :
    Option (ℚ × List Char) :=
  match s with
  | [] => none
  | c :: rest => if c.toUpper = letter then parseDec neg rest else none

/-- The `[^XYZF]*` gap eaters of `regParseLine` (IGNORECASE, so both cases
are excluded). -/
def eatGap (s : List Char) : List Char :=
  s.dropWhile (fun c => ¬ (c.toUpper = 'X' ∨ c.toUpper = 'Y' ∨ c.toUpper = 'Z' ∨ c.toUpper = 'F'))

structure ParseLine where
  matched : Bool
  XY : String
  Z : Option ℚ
  F : Option ℚ
  deriving Repr, DecidableEq

/-- Model of `regParseLine.match(line)`: prefix match of
`(G num gap)? (X num gap)? (Y num gap)? (Z num gap)? (F num gap)?` where the
`XY` group captures the raw text matched for the X and Y words (with their
trailing gaps).  `matched` is Python's `match.end() != 0`. -/
def parseLineR (s : String) : ParseLine :=
  let cs := s.data
  let s1 := match parseWordQ 'G' false cs with
            | some (_, r) => eatGap r
            | none => cs
  let s2 := match parseWordQ 'X' true s1 with
            | some (_, r) => eatGap r
            | none => s1
  let s3 := match parseWordQ 'Y' true s2 with
            | some (_, r) => eatGap r
            | none => s2
  let xyTxt := s1.take (s1.length - s3.length)
  let (zv, s4) : Option ℚ × List Char :=
    match parseWordQ 'Z' true s3 with
    | some (v, r) => (some v, eatGap r)
    | none => (none, s3)
  let (fv, s5) : Option ℚ × List Char :=
    match parseWordQ 'F' true s4 with
    | some (v, r) => (some v, eatGap r)
    | none => (none, s4)
  ⟨s5.length ≠ cs.length, ⟨xyTxt⟩, zv, fv⟩

/-- `int(float(x))` on a nonnegative decimal: truncation. -/
def truncQ (q : ℚ) : Nat := q.floor.toNat

/-- Model of `regGcodes.findall(line)` (case-sensitive `G`), with each
captured number passed through `int(float(_))` as in the source. -/
def findGcodesF (fuel : Nat) (s : List Char) : List Nat :=
  match fuel, s with
  | 0, _ => []
  | _, [] => []
  | fuel2 + 1, c :: rest =>
    if c = 'G' then
      match parseDec false rest with
      | some (v, r) => truncQ v :: findGcodesF fuel2 r
      | none => findGcodesF fuel2 rest
    else findGcodesF fuel2 rest
termination_by structural fuel

/-- Scan with enough fuel: each step consumes at least one character (see
`parseDec_length`), so `s.length + 1` steps always finish the scan. -/
def findGcodes (s : List Char) : List Nat := findGcodesF (s.length + 1) s

/-! ### Python string operations used by the source -/

/-- `str.splitlines(True)` restricted to `\n` separators. -/
def splitlinesKeep (s : String) : List String :=
  go s.data []
where
  go : List Char → List Char → List String
  | [], acc => if acc.isEmpty then [] else [⟨acc.reverse⟩]
  | c :: rest, acc =>
    if c = '\n' then ⟨(c :: acc).reverse⟩ :: go rest []
    else go rest (c :: acc)

/-- `str.rstrip("\n ")`. -/
def rstripNlSpace (s : String) : String :=
  ⟨(s.data.reverse.dropWhile (fun c => c = '\n' ∨ c = ' ')).reverse⟩

/-- Python `s[:-1]`. -/
def dropLast1 (s : String) : String := ⟨s.data.dropLast⟩

/-- Python `str.replace(":", "\n")`. -/
def replaceColon (s : String) : String :=
  ⟨s.data.map (fun c => if c = ':' then '\n' else c)⟩

/-- Case-insensitive substring search, as `line.upper().find(sub.upper())`;
returns the first index or `none`. -/
def findCI (hay sub : List Char) : Option Nat :=
  go (hay.map Char.toUpper) (sub.map Char.toUpper) 0
where
  go : List Char → List Char → Nat → Option Nat
  | h, sub, i =>
    if sub.isPrefixOf h then some i
    else
      match h with
      | [] => none
      | _ :: t => go t sub (i + 1)

/-- Decimal rendering of a rational, approximating Python `str(float)` on
the finite decimals produced by the source's parsing (always shows a
fractional part, as `str(5.0) = "5.0"`). -/
def qStr (q : ℚ) : String :=
  let sign := if q < 0 then "-" else ""
  let a := |q|
  match (List.range 31).find? (fun k => (a * (10 : ℚ) ^ k).den = 1) with
  | some 0 => sign ++ toString a.num ++ ".0"
  | some k =>
    let m := (a * (10 : ℚ) ^ k).num.toNat
    let s := toString m
    let s := if s.length ≤ k then String.mk (List.replicate (k + 1 - s.length) '0') ++ s else s
    sign ++ ⟨s.data.take (s.length - k)⟩ ++ "." ++ ⟨s.data.drop (s.length - k)⟩
  | none => sign ++ toString a.num ++ "/" ++ toString a.den

/-- Python `re.findall("M([0-9]+)", s)`-style scan used for the end-code
configuration (case-sensitive letter, decimal digit captures). -/
def findIntCodesF (letter : Char) (fuel : Nat) (s : List Char) : List Nat :=
  match fuel, s with
  | 0, _ => []
  | _, [] => []
  | fuel2 + 1, c :: rest =>
    if c = letter then
      if (takeDigits rest).1.isEmpty then findIntCodesF letter fuel2 rest
      else digitsVal (takeDigits rest).1 ::
        findIntCodesF letter fuel2 (takeDigits rest).2
    else findIntCodesF letter fuel2 rest
termination_by structural fuel

/-- Scan with enough fuel: each step consumes at least one character, so
`s.length + 1` steps always finish the scan. -/
def findIntCodes (letter : Char) (s : List Char) : List Nat :=
  findIntCodesF letter (s.length + 1) s

/-! ### Constants from the source -/

def constMotionGcodeSet : List Nat := [0, 1, 2, 3, 33, 38, 73, 76, 80, 81, 82, 84, 85, 86, 87, 88, 89]

def constHomeGcodeSet : List Nat := [28, 30]

def constLineNumInc : Nat := 5

def constBodyTmpFile : String := "gcodeBody"

def constOpTmpFile : String := "8910"

def constRapidZgcode (z : ℚ) (orig : String) : String :=
  "G00 Z" ++ qStr z ++ " (Changed from: \"" ++ orig ++ "\")\n"

def constRapidXYgcode (xy orig : String) : String :=
  "G00 " ++ xy ++ " (Changed from: \"" ++ orig ++ "\")\n"

def constFeedZgcode (z f : ℚ) (orig : String) : String :=
  "G01 Z" ++ qStr z ++ " F" ++ qStr f ++ " (Changed from: \"" ++ orig ++ "\")\n"

def constFeedXYgcode (xy : String) (f : ℚ) (orig : String) : String :=
  "G01 " ++ xy ++ " F" ++ qStr f ++ " (Changed from: \"" ++ orig ++ "\")\n"

def constFeedXYZgcode (xy : String) (z f : ℚ) (orig : String) : String :=
  "G01 " ++ xy ++ " Z" ++ qStr z ++ " F" ++ qStr f ++ " (Changed from: \"" ++ orig ++ "\")\n"

def constAddFeedGcode (f : ℚ) : String :=
  " F" ++ qStr f ++ " (Feed rate added)\n"

/-! ### The rapid-move rewriter (the `fFastZ` block of the body loop)

The tracking variables initialised at the per-group header `fFastZ`,
`Gcode`, `Zcur`, `Zfeed`, `fZfeedNotSet`, `feedCur`, `fNeedFeed`,
`fLockSpeed`, plus `Zlast`, which is only ever assigned inside the loop and
therefore survives group boundaries.  Comparisons between `None` and a float
raise `TypeError` in Python; they are modelled by `Except`, with the state
at the raise point carried in the error (mutations before the raise
persist). -/

structure FastState where
  fFastZ : Bool
  Gcode : Option Nat
  Zcur : Option ℚ
  Zlast : Option ℚ
  Zfeed : Option ℚ
  fZfeedNotSet : Bool
  feedCur : ℚ
  fNeedFeed : Bool
  fLockSpeed : Bool
  deriving Repr, DecidableEq

/-- Python `a >= b` where either side may be `None`. -/
def pyGe (a b : Option ℚ) : Except Unit Bool :=
  match a, b with
  | some x, some y => .ok (decide (x ≥ y))
  | _, _ => .error ()

/-- Python `a < b` where either side may be `None`. -/
def pyLt (a b : Option ℚ) : Except Unit Bool :=
  match a, b with
  | some x, some y => .ok (decide (x < y))
  | _, _ => .error ()

/-- Python `a <= b` where either side may be `None`. -/
def pyLe (a b : Option ℚ) : Except Unit Bool :=
  match a, b with
  | some x, some y => .ok (decide (x ≤ y))
  | _, _ => .error ()

/-- The `for GcodeTmp in Gcodes` scan: stops at the first home code (28/30)
or the first motion code; returns
`(fHomeGcode, fNoMotionGcode, Gcode, fNeedFeed)`. -/
def scanG : List Nat → Option Nat → Bool → Bool × Bool × Option Nat × Bool
  | [], g, nf => (false, true, g, nf)
  | c :: rest, g, nf =>
    if c ∈ constHomeGcodeSet then (true, true, g, nf)
    else if c ∈ constMotionGcodeSet then
      (false, false, some c, if c = 0 then false else nf)
    else scanG rest g nf

/-- Lines 1259–1268: feed-height discovery on a Z-only move. -/
def fastB1 (st : FastState) (zTmp : Option ℚ) (XYcur : String) (line : String) :
    FastState × String :=
  if (st.Zfeed = none ∨ st.fZfeedNotSet) ∧ (st.Gcode = some 0 ∨ st.Gcode = some 1)
      ∧ zTmp ≠ none ∧ XYcur = "" then
    let st := if st.Zfeed ≠ none then { st with fZfeedNotSet := false } else st
    let st := { st with Zfeed := st.Zcur }
    if st.Gcode ≠ some 0 then
      ({ st with fNeedFeed := true, Gcode := some 0 },
        constRapidZgcode (st.Zcur.getD 0) (dropLast1 line))
    else (st, line)
  else (st, line)

/-- Lines 1270–1303: rapid-move substitution and its `elif` restoring an
explicit feed move.  Raise points surface as `.error` carrying the state at
the raise. -/
def fastB2 (st : FastState) (zTmp : Option ℚ) (XYcur : String)
    (fNoMotion : Bool) (line : String) :
    Except FastState (FastState × String) :=
  if st.Gcode = some 1 ∧ ¬ st.fLockSpeed then
    if zTmp ≠ none then
      if XYcur = "" then
        match pyGe st.Zcur st.Zlast with
        | .error _ => .error st
        | .ok b1 =>
          if b1 then
            .ok ({ st with fNeedFeed := true, Gcode := some 0 },
              constRapidZgcode (st.Zcur.getD 0) (dropLast1 line))
          else
            match pyGe st.Zcur st.Zfeed with
            | .error _ => .error st
            | .ok b2 =>
              if b2 ∨ st.feedCur = 0 then
                .ok ({ st with fNeedFeed := true, Gcode := some 0 },
                  constRapidZgcode (st.Zcur.getD 0) (dropLast1 line))
              else .ok (st, line)
      else .ok (st, line)
    else
      match pyGe st.Zcur st.Zfeed with
      | .error _ => .error st
      | .ok b =>
        if b then
          .ok ({ st with fNeedFeed := true, Gcode := some 0 },
            constRapidXYgcode XYcur (dropLast1 line))
        else .ok (st, line)
  else if st.fNeedFeed ∧ fNoMotion then
    if zTmp ≠ none then
      if XYcur ≠ "" then
        .ok ({ st with fNeedFeed := false, Gcode := some 1 },
          constFeedXYZgcode XYcur (st.Zcur.getD 0) st.feedCur (dropLast1 line))
      else
        match pyLt st.Zcur st.Zfeed with
        | .error _ => .error st
        | .ok b1 =>
          if b1 then
            match pyLe st.Zcur st.Zlast with
            | .error _ => .error st
            | .ok b2 =>
              if b2 then
                .ok ({ st with fNeedFeed := false, Gcode := some 1 },
                  constFeedZgcode (st.Zcur.getD 0) st.feedCur (dropLast1 line))
              else .ok (st, line)
          else .ok (st, line)
    else
      if XYcur ≠ "" then
        match pyLt st.Zcur st.Zfeed with
        | .error _ => .error st
        | .ok b =>
          if b then
            .ok ({ st with fNeedFeed := false, Gcode := some 1 },
              constFeedXYgcode XYcur st.feedCur (dropLast1 line))
          else .ok (st, line)
      else .ok (st, line)
  else .ok (st, line)

/-- Lines 1305–1309: attach a feed rate when a rewrite still needs one. -/
def fastB3 (st : FastState) (fTmp : Option ℚ) (line : String) :
    FastState × String :=
  if st.Gcode ≠ some 0 ∧ st.fNeedFeed then
    (({ st with fNeedFeed := false }),
      if fTmp = none then dropLast1 line ++ constAddFeedGcode st.feedCur else line)
  else (st, line)

/-- Lines 1311–1315: raise the feed-height estimate after a cutting move at
or above it. -/
def fastB4 (st : FastState) (zTmp : Option ℚ) (XYcur : String) : FastState :=
  match st.Zcur, st.Zfeed with
  | some zc, some zf =>
    if zc ≥ zf ∧ st.Gcode ≠ none ∧ st.Gcode ≠ some 0 ∧ XYcur ≠ ""
        ∧ (zTmp ≠ none ∨ st.Gcode ≠ some 1) then
      { st with Zfeed := some (zc + 1 / 1000) }
    else st
  | _, _ => st

/-- The body of the `try` at lines 1229–1315, after `regParseLine` matched
with nonzero length. -/
def fastTry (st : FastState) (pl : ParseLine) (line : String) :
    Except FastState (FastState × String) :=
  let s := scanG (findGcodes line.data) st.Gcode st.fNeedFeed
  let fHome := s.1
  let fNoMotion := s.2.1
  let st := { st with Gcode := s.2.2.1, fNeedFeed := s.2.2.2 }
  if fHome then .ok (st, line)
  else
    let st :=
      match pl.Z with
      | some z => { st with Zlast := st.Zcur, Zcur := some z }
      | none => st
    let st :=
      match pl.F with
      | some f => { st with feedCur := f }
      | none => st
    let XYcur := rstripNlSpace pl.XY
    let (st, line) := fastB1 st pl.Z XYcur line
    match fastB2 st pl.Z XYcur fNoMotion line with
    | .error st => .error st
    | .ok (st, line) =>
      let (st, line) := fastB3 st pl.F line
      .ok (fastB4 st pl.Z XYcur, line)

/-- One pass of the rapid-move rewriter over one body line: the
`if fFastZ:` block at lines 1225–1317.  A parse exception leaves the
already-performed mutations in place, clears `fFastZ` and copies the line
unchanged. -/
def fastZstep (st : FastState) (line : String) : FastState × String :=
  if ¬ st.fFastZ then (st, line)
  else
    let pl := parseLineR line
    if ¬ pl.matched then (st, line)
    else
      match fastTry st pl line with
      | .ok r => r
      | .error st => ({ st with fFastZ := false }, line)

/-- The per-group re-initialisation at lines 1196–1204 (`Zlast` is *not*
among the initialised variables and survives from the previous group). -/
def initFast (enabled : Bool) (zLastPersist : Option ℚ) : FastState :=
  { fFastZ := enabled
    Gcode := none
    Zcur := none
    Zlast := zLastPersist
    Zfeed := none
    fZfeedNotSet := true
    feedCur := 0
    fNeedFeed := false
    fLockSpeed := false }

/-! ### Fragment retrieval (lines 1063–1099)

The external post-processor and the filesystem race are collaborators:
`post k` is the reported outcome of the `program.postProcess` call on loop
iteration `k`, `openOk k` tells whether the expected output file can be
opened on iteration `k`, `listing` is the output directory contents used by
the diagnostic scan, and `opTitle` is `opHasTool.name` when the group has a
tool-bearing operation. -/

inductive PostResult
  | ok
  | failed
  | threw (msg : String)
  deriving Repr, DecidableEq

structure GroupInput where
  post : Nat → PostResult
  openOk : Nat → Bool
  frag : List String
  listing : List String
  opTitle : Option String

structure RetrieveOut where
  result : Except String (List String)
  sleeps : List ℚ
  opens : Nat

def engineFalseMsg (t : Option String) : String :=
  "Fusion reported an error processing operation" ++
    (match t with | some n => ": " ++ n | none => "")

def engineThrewMsg (t : Option String) (e : String) : String :=
  "Fusion reported an exception" ++
    (match t with | some n => " in operation " ++ n | none => "") ++ ": " ++ e

def mismatchExtMsg (ext fileExt : String) : String :=
  "Unable to open output file. Found the file with extension " ++ ext ++
    " instead of " ++ fileExt ++ ". Make sure you have the correct file " ++
    "extension set in the Post Process All dialog."

def unableOpenMsg (opPath : String) : String := "Unable to open " ++ opPath

/-- Python `file.startswith(opName)`. -/
def startsWith (pre s : String) : Bool := pre.data.isPrefixOf s.data

/-- Python `file[n:]` (slicing by character index). -/
def dropStr (s : String) (n : Nat) : String := ⟨s.data.drop n⟩

/-- The directory scan at lines 1089–1099: the first entry starting with the
temporary output name decides; a different extension is reported, the
expected one falls through to the generic message. -/
def scanDirMsg (listing : List String) (opName fileExt opPath : String) : String :=
  match listing.find? (fun f => startsWith opName f) with
  | some f =>
    let ext := dropStr f opName.length
    if ext ≠ fileExt then mismatchExtMsg ext fileExt else unableOpenMsg opPath
  | none => unableOpenMsg opPath

/-- The `while True` retrieval loop: invoke the engine (failure and thrown
exceptions return immediately), sleep `delay`, try to open; on failure
double the delay, decrement the retry budget and loop while it stays
positive. -/
def retrieveLoopN (g : GroupInput) (opName fileExt opPath : String)
    (retries : Nat) (delay : ℚ) (k : Nat) : RetrieveOut :=
  match g.post k with
  | .failed => ⟨.error (engineFalseMsg g.opTitle), [], 0⟩
  | .threw e => ⟨.error (engineThrewMsg g.opTitle e), [], 0⟩
  | .ok =>
    if g.openOk k then ⟨.ok g.frag, [delay], 1⟩
    else
      match retries with
      | 0 => ⟨.error (scanDirMsg g.listing opName fileExt opPath), [delay], 1⟩
      | n + 1 =>
        if n = 0 then ⟨.error (scanDirMsg g.listing opName fileExt opPath), [delay], 1⟩
        else
          let r2 := retrieveLoopN g opName fileExt opPath n (delay * 2) (k + 1)
          ⟨r2.result, delay :: r2.sleeps, r2.opens + 1⟩
termination_by structural retries

/-- The loop on the raw `Int` retry setting: `retries -= 1; if retries > 0:
continue` iterates again exactly when the remaining budget is at least 2,
which only depends on the nonnegative part of the counter. -/
def retrieveLoop (g : GroupInput) (opName fileExt opPath : String)
    (retries : Int) (delay : ℚ) (k : Nat) : RetrieveOut :=
  retrieveLoopN g opName fileExt opPath retries.toNat delay k

/-! ### The tool-change snippet (lines 995–1005 and 1169–1176) -/

inductive ToolChangeRep
  | txt (s : String)
  | numbered (ls : List String)
  deriving Repr, DecidableEq

/-- Length test `len(toolChange) != 0` across the two dynamic types. -/
def tcLen : ToolChangeRep → Nat
  | .txt s => s.length
  | .numbered ls => ls.length

/-- Lines 995–1005: replace `:` with newlines, terminate, and when the text
starts with a line-number placeholder strip it and pre-split the lines. -/
def preprocessToolChange (setting : String) : ToolChangeRep :=
  if setting.length = 0 then .txt setting
  else
    let tcs := replaceColon setting ++ "\n"
    match regBodyMatch tcs with
    | some m => if m.hasN then .numbered (splitlinesKeep m.restLine) else .txt tcs
    | none => .txt tcs

/-- Lines 1170–1174: when the snippet carried a line-number placeholder,
every line is written as `N<counter> <line>` and the counter advances per
line. -/
def numberLines : List String → Nat → List String
  | [], _ => []
  | l :: ls, n => ("N" ++ toString n ++ " " ++ l) :: numberLines ls (n + constLineNumInc)

def arithFrom (a : Nat) : Nat → List Nat
  | 0 => []
  | n + 1 => a :: arithFrom (a + constLineNumInc) n

/-- The injection write at lines 1169–1176; returns
`(writes, numbers used, new counter, whether anything was emitted)`. -/
def emitToolChange : ToolChangeRep → Nat → List String × List Nat × Nat × Bool
  | .txt s, n => if s.length ≠ 0 then ([s], [], n, true) else ([], [], n, false)
  | .numbered ls, n =>
    if ls.length ≠ 0 then
      (numberLines ls n, arithFrom n ls.length, n + constLineNumInc * ls.length, true)
    else ([], [], n, false)

/-! ### Header phase (lines 1126–1153) -/

/-- `fileOp.readline()`: the next line, or `""` at end of file. -/
def rl : List String → String × List String
  | [] => ("", [])
  | l :: r => (l, r)

/-- The program-name rewrite at lines 1143–1151. -/
def nameFixLine (numericName : Bool) (opName fname line : String) : String :=
  match findCI line.data opName.data with
  | none => line
  | some pos =>
    let pos2 := pos + opName.length
    let fill : List Char :=
      if numericName then List.replicate (pos2 - fname.length - 1) '0' else []
    ⟨line.data.take 1 ++ fill ++ fname.data ++ line.data.drop pos2⟩

/-- The header `while` loop at lines 1135–1153.  `line[0]` on an empty
string raises `IndexError`, modelled as `.error`.  Returns the header
writes, the blank flag, and the current line plus the unread rest. -/
def headerLoop (fFirst numericName : Bool) (opName fname : String)
    (line : String) (rest : List String) (hw : List String) (blankOk : Bool) :
    Except Unit (List String × Bool × String × List String) :=
  match line.data with
  | [] => .error ()
  | c :: _ =>
    if c = '(' ∨ c = 'O' ∨ c = '\n' then
      let blankOk := if c = '\n' then true else blankOk
      if toolCommentMatch line then
        let (l2, r2) := rl rest
        .ok (hw ++ [line], blankOk, l2, r2)
      else
        match rest with
        | [] => .error ()
        | l2 :: r2 =>
          let w := if fFirst then [nameFixLine numericName opName fname line] else []
          headerLoop fFirst numericName opName fname l2 r2 (hw ++ w) blankOk
    else .ok (hw, blankOk, line, rest)

/-- Lines 1126–1131 and the header loop: the leading `%` marker is kept only
for the first group and the header lines only reach the output header on the
first group (the tool comment on every group). -/
def headerPhase (fFirst numericName : Bool) (opName fname : String)
    (frag : List String) (blankOk : Bool) :
    Except Unit (List String × Bool × String × List String) :=
  let (line, rest) := rl frag
  match line.data with
  | [] => .error ()
  | c :: _ =>
    if c = '%' then
      let w := if fFirst then [line] else []
      let (l2, r2) := rl rest
      headerLoop fFirst numericName opName fname l2 r2 w blankOk
    else headerLoop fFirst numericName opName fname line rest [] blankOk

/-! ### Tool scan (lines 1155–1193) and body loop (lines 1207–1329) -/

/-- Accumulated body-file writes, line numbers handed out, and the trace of
fragment-derived lines written with their assigned number. -/
structure ScanAcc where
  bw : List String
  nums : List Nat
  tr : List (String × Option Nat)
  lineNum : Nat
  blankOk : Bool
  deriving Repr, DecidableEq

inductive TScanOut
  | exc (acc : ScanAcc)
  | fmtErr (acc : ScanAcc)
  | ok (acc : ScanAcc) (injected : Bool) (toolExit : Nat) (m : BodyMatch)
      (orig : String) (rest : List String)
  deriving Repr

/-- The scan to the first tool code.  On a non-first group a differing tool
number triggers the tool-change injection before the tool line; an equal
tool number drops the tool line and enters the body at the next line. -/
def tScan (fFirst : Bool) (toolLast : Option Nat) (tc : ToolChangeRep)
    (cur : String) (rest : List String) (acc : ScanAcc) : TScanOut :=
  match regBodyMatch cur with
  | none => .exc acc
  | some m =>
    match m.tCode with
    | some toolCur =>
      if fFirst then .ok acc false toolCur m cur rest
      else if some toolCur ≠ toolLast then
        if tcLen tc ≠ 0 then
          let e := emitToolChange tc acc.lineNum
          .ok { acc with bw := acc.bw ++ e.1, nums := acc.nums ++ e.2.1,
                         lineNum := e.2.2.1 }
            e.2.2.2 toolCur m cur rest
        else .ok acc false toolCur m cur rest
      else
        match rl rest with
        | (l2, r2) =>
          match regBodyMatch l2 with
          | none => .exc acc
          | some m2 => .ok acc false toolCur m2 l2 r2
    | none =>
      let acc :=
        if fFirst ∨ m.restLine.data.head? = some '(' then
          if m.hasN then
            { acc with bw := acc.bw ++ ["N" ++ toString acc.lineNum ++ " ", m.restLine],
                       nums := acc.nums ++ [acc.lineNum],
                       tr := acc.tr ++ [(cur, some acc.lineNum)],
                       lineNum := acc.lineNum + constLineNumInc }
          else
            { acc with bw := acc.bw ++ [m.restLine],
                       tr := acc.tr ++ [(cur, none)] }
        else acc
      match rest with
      | [] => .fmtErr acc
      | l2 :: r2 =>
        let acc := if l2.data.head? = some '\n' then { acc with blankOk := true } else acc
        tScan fFirst toolLast tc l2 r2 acc

inductive BodyOut
  | exc (acc : ScanAcc) (fast : FastState)
  | ok (acc : ScanAcc) (fast : FastState) (lineFull : Option String)
      (rest : List String)
  deriving Repr

/-- The `M49`/`M48` speed-lock toggling at lines 1215–1218. -/
def lockStep (m : BodyMatch) (fast : FastState) : FastState :=
  if m.mCode = some 49 then { fast with fLockSpeed := true }
  else if m.mCode = some 48 then { fast with fLockSpeed := false }
  else fast

/-- The copy of one body line at lines 1320–1323: renumber when the source
line carried a number, else copy without adding one. -/
def writeLine (m : BodyMatch) (orig line : String) (acc : ScanAcc) : ScanAcc :=
  if m.hasN then
    { acc with bw := acc.bw ++ ["N" ++ toString acc.lineNum ++ " ", line],
               nums := acc.nums ++ [acc.lineNum],
               tr := acc.tr ++ [(orig, some acc.lineNum)],
               lineNum := acc.lineNum + constLineNumInc }
  else { acc with bw := acc.bw ++ [line], tr := acc.tr ++ [(orig, none)] }

/-- The body copy loop: stop at a configured end M- or G-code (the line
becomes the first tail line) or at end of fragment; otherwise apply the
rapid-move pass, renumber when the source line carried a number, and copy.
`M49`/`M48` toggle the speed lock. -/
def bodyLoop (endM endG : List Nat) (m : BodyMatch) (orig : String)
    (lineFull : Option String) (rest : List String) (fast : FastState)
    (acc : ScanAcc) : BodyOut :=
  if ∃ v, m.mCode = some v ∧ v ∈ endM then .ok acc fast lineFull rest
  else
    let fast := lockStep m fast
    if ∃ v, m.gCode = some v ∧ v ∈ endG then .ok acc fast lineFull rest
    else
      let fl := fastZstep fast m.restLine
      let acc := writeLine m orig fl.2 acc
      match rest with
      | [] => .ok acc fl.1 (some "") []
      | l2 :: r2 =>
        match regBodyMatch l2 with
        | none => .exc acc fl.1
        | some m2 => bodyLoop endM endG m2 l2 (some l2) r2 fl.1 acc

/-- Lines 1339–1349: the tail is split into lines; lines with an original
number are renumbered from the running counter, others are copied verbatim.
`none` models the impossible `AttributeError` on an unmatchable line. -/
def tailWrite (tail : String) (lineNum : Nat) :
    Option (List String × List Nat × List (String × Option Nat) × Nat) :=
  go (splitlinesKeep tail) lineNum
where
  go : List String → Nat → Option (List String × List Nat × List (String × Option Nat) × Nat)
  | [], n => some ([], [], [], n)
  | c :: cs, n =>
    match regBodyMatch c with
    | none => none
    | some m =>
      if m.hasN then
        match go cs (n + constLineNumInc) with
        | none => none
        | some (ws, ns, tr, n2) =>
          some (("N" ++ toString n ++ " " ++ m.restLine) :: ws, n :: ns,
            (c, some n) :: tr, n2)
      else
        match go cs n with
        | none => none
        | some (ws, ns, tr, n2) => some (c :: ws, ns, (c, none) :: tr, n2)

/-! ### Per-setup state, per-group step and the driver (lines 979–1394) -/

structure RunCfg where
  toolChange : String
  endCodes : String
  fastZ : Bool
  numericName : Bool
  postRetries : Int
  initialDelay : ℚ
  fname : String
  fileExt : String
  opFolder : String

def RunCfg.opName (_ : RunCfg) : String := constOpTmpFile

def RunCfg.opPath (cfg : RunCfg) : String :=
  cfg.opFolder ++ "/" ++ cfg.opName ++ cfg.fileExt

/-- Function-local state of `PostProcessSetup` threaded across groups, plus
the modelled on-disk contents of the output file (`headW`), the temporary
body file (`bodyW`) and the temporary fragment file (`opFile`). -/
structure GState where
  fFirst : Bool
  fBlankOk : Bool
  toolLast : Option Nat
  lineNum : Nat
  tailGcode : Option String
  lineFull : Option String
  zLast : Option ℚ
  headW : List String
  bodyW : List String
  opFile : Option (List String)
  nums : List Nat
  frTrace : List (String × Option Nat)
  deriving Repr, DecidableEq

/-- Observations recorded about one processed group. -/
structure GroupGhost where
  fFirstEntry : Bool
  toolEntry : Option Nat
  toolExit : Nat
  injected : Bool
  fastEntry : FastState
  fastExit : FastState
  tailSet : Option String
  deriving Repr, DecidableEq

inductive StepOut
  | ok (st : GState) (gh : GroupGhost)
  | ret (msg : String) (st : GState)
  | exc (st : GState)
  deriving Repr

/-- One iteration of the `while i < ops.count` loop after operation
grouping: retrieval, header scan, tool scan, body loop, tail capture and
fragment-file removal. -/
def groupStep (cfg : RunCfg) (tc : ToolChangeRep) (endM endG : List Nat)
    (g : GroupInput) (st : GState) : StepOut :=
  let r := retrieveLoop g cfg.opName cfg.fileExt cfg.opPath
      cfg.postRetries cfg.initialDelay 0
  match r.result with
  | .error msg => .ret msg st
  | .ok frag =>
    let sep : List String := if ¬ st.fFirst ∧ st.fBlankOk then ["\n"] else []
    match headerPhase st.fFirst cfg.numericName cfg.opName cfg.fname frag st.fBlankOk with
    | .error _ => .exc { st with opFile := some frag, bodyW := st.bodyW ++ sep }
    | .ok (hw, blankOk, cur, rest) =>
      match tScan st.fFirst st.toolLast tc cur rest ⟨[], [], [], st.lineNum, blankOk⟩ with
      | .exc acc =>
        .exc { st with opFile := some frag, headW := st.headW ++ hw,
                       bodyW := st.bodyW ++ sep ++ acc.bw,
                       nums := st.nums ++ acc.nums, frTrace := st.frTrace ++ acc.tr,
                       lineNum := acc.lineNum, fBlankOk := acc.blankOk }
      | .fmtErr acc =>
        .ret "Tool change G-code (Txx) not found; this post processor is not compatible with Post Process All."
          { st with opFile := some frag, headW := st.headW ++ hw,
                    bodyW := st.bodyW ++ sep ++ acc.bw,
                    nums := st.nums ++ acc.nums, frTrace := st.frTrace ++ acc.tr,
                    lineNum := acc.lineNum, fBlankOk := acc.blankOk }
      | .ok acc injected toolExit m orig rest2 =>
        match bodyLoop endM endG m orig st.lineFull rest2 (initFast cfg.fastZ st.zLast) acc with
        | .exc acc2 fast2 =>
          .exc { st with opFile := some frag, headW := st.headW ++ hw,
                         bodyW := st.bodyW ++ sep ++ acc2.bw,
                         nums := st.nums ++ acc2.nums, frTrace := st.frTrace ++ acc2.tr,
                         lineNum := acc2.lineNum, fBlankOk := acc2.blankOk,
                         toolLast := some toolExit, zLast := fast2.Zlast }
        | .ok acc2 fast2 lineFull2 restAfter =>
          if st.fFirst then
            match lineFull2 with
            | none =>
              .exc { st with opFile := some frag, headW := st.headW ++ hw,
                             bodyW := st.bodyW ++ sep ++ acc2.bw,
                             nums := st.nums ++ acc2.nums, frTrace := st.frTrace ++ acc2.tr,
                             lineNum := acc2.lineNum, fBlankOk := acc2.blankOk,
                             toolLast := some toolExit, lineFull := lineFull2,
                             zLast := fast2.Zlast }
            | some lf =>
              .ok { fFirst := false, fBlankOk := acc2.blankOk,
                    toolLast := some toolExit, lineNum := acc2.lineNum,
                    tailGcode := some (lf ++ String.join restAfter),
                    lineFull := lineFull2, zLast := fast2.Zlast,
                    headW := st.headW ++ hw, bodyW := st.bodyW ++ sep ++ acc2.bw,
                    opFile := none, nums := st.nums ++ acc2.nums,
                    frTrace := st.frTrace ++ acc2.tr }
                ⟨true, st.toolLast, toolExit, injected,
                  initFast cfg.fastZ st.zLast, fast2,
                  some (lf ++ String.join restAfter)⟩
          else
            .ok { fFirst := false, fBlankOk := acc2.blankOk,
                  toolLast := some toolExit, lineNum := acc2.lineNum,
                  tailGcode := st.tailGcode, lineFull := lineFull2,
                  zLast := fast2.Zlast, headW := st.headW ++ hw,
                  bodyW := st.bodyW ++ sep ++ acc2.bw, opFile := none,
                  nums := st.nums ++ acc2.nums, frTrace := st.frTrace ++ acc2.tr }
              ⟨false, st.toolLast, toolExit, injected,
                initFast cfg.fastZ st.zLast, fast2, none⟩

inductive GroupsOut
  | ok (st : GState) (gs : List GroupGhost)
  | ret (msg : String) (st : GState)
  | exc (st : GState)
  deriving Repr

def processGroups (cfg : RunCfg) (tc : ToolChangeRep) (endM endG : List Nat) :
    List GroupInput → GState → GroupsOut
  | [], st => .ok st []
  | g :: rest, st =>
    match groupStep cfg tc endM endG g st with
    | .ok st2 gh =>
      match processGroups cfg tc endM endG rest st2 with
      | .ok st3 gs => .ok st3 (gh :: gs)
      | .ret m s => .ret m s
      | .exc s => .exc s
    | .ret m s => .ret m s
    | .exc s => .exc s

structure Disk where
  head : Option (List String)
  body : Option (List String)
  op : Option (List String)
  deriving Repr, DecidableEq

/-- How `PostProcessSetup` left the function: normal completion, an early
`return` with an error message, or an exception caught by the outer
handler. -/
inductive RunKind
  | success
  | errReturn
  | excCaught
  deriving Repr, DecidableEq

structure RunOut where
  disk : Disk
  msg : Option String
  kind : RunKind
  gs : List GroupGhost
  nums : List Nat
  frTrace : List (String × Option Nat)
  tailUsed : Option String
  deriving Repr

/-- The message returned from the outer `except` handler (`retVal` is still
its initial value there; the appended traceback text is summarised). -/
def constExcMsg : String := "Fusion reported an exception" ++ " traceback"

/-- Initial per-setup state (lines 982–984). -/
def initGState : GState :=
  { fFirst := true, fBlankOk := false, toolLast := none, lineNum := 10,
    tailGcode := none, lineFull := none, zLast := none, headW := [],
    bodyW := [], opFile := none, nums := [], frTrace := [] }

/-- The split-setup part of `PostProcessSetup` (lines 979–1394): body file
opened, tool-change and end-code settings parsed, groups processed in order,
tail appended with renumbering, body copied into the output file, temporary
files removed; the outer `except` handler closes and removes all three
files. -/
def postProcessSetupSplit (cfg : RunCfg) (groups : List GroupInput) : RunOut :=
  let tc := preprocessToolChange cfg.toolChange
  let endG := findIntCodes 'G' cfg.endCodes.data
  let endM := findIntCodes 'M' cfg.endCodes.data
  match processGroups cfg tc endM endG groups initGState with
  | .ret m st =>
    ⟨⟨some st.headW, some st.bodyW, st.opFile⟩, some m, .errReturn, [],
      st.nums, st.frTrace, none⟩
  | .exc _ => ⟨⟨none, none, none⟩, some constExcMsg, .excCaught, [], [], [], none⟩
  | .ok st gs =>
    match st.tailGcode with
    | none => ⟨⟨none, none, none⟩, some constExcMsg, .excCaught, [], [], [], none⟩
    | some tail =>
      let tw :=
        if tail.length ≠ 0 then tailWrite tail st.lineNum
        else some ([], [], [], st.lineNum)
      match tw with
      | none => ⟨⟨none, none, none⟩, some constExcMsg, .excCaught, [], [], [], none⟩
      | some (ws, ns, ttr, _) =>
        ⟨⟨some (st.headW ++ st.bodyW ++ ws), none, none⟩, none, .success, gs,
          st.nums ++ ns, st.frTrace ++ ttr, some tail⟩

/-! ### Renumbering invariants -/

/-- Whether a raw source line carries a line-number word (`regBody`'s `N`
group). -/
def lineHasN (s : String) : Bool :=
  match regBodyMatch s with
  | some m => m.hasN
  | none => false

/-- The accumulator evolves by appending: the numbers handed out continue
the arithmetic progression from the entry counter, and every traced line is
numbered exactly when its source line carried a number. -/
def accExt (acc acc2 : ScanAcc) : Prop :=
  (∃ k, acc2.nums = acc.nums ++ arithFrom acc.lineNum k ∧
        acc2.lineNum = acc.lineNum + constLineNumInc * k) ∧
  (∃ ts, acc2.tr = acc.tr ++ ts ∧ ∀ p ∈ ts, Option.isSome p.2 = lineHasN p.1)

/-- Chained facts about the per-group ghosts of one setup: the first group
runs with `fFirst` set, every later group with it clear; each group's entry
tool is the previous exit tool; each group's rapid-move state is freshly
re-initialised (only the previous-Z tracker carried over); the tail is
captured exactly by the group that runs with `fFirst` set. -/
def ghostChain (fz : Bool) : Bool → Option Nat → Option ℚ → List GroupGhost → Prop
  | _, _, _, [] => True
  | fF, tl, zl, gg :: rest =>
    gg.fFirstEntry = fF ∧ gg.toolEntry = tl ∧ gg.fastEntry = initFast fz zl ∧
    gg.tailSet.isSome = fF ∧
    ghostChain fz false (some gg.toolExit) gg.fastExit.Zlast rest

/-- The doubling backoff sequence of the retrieval loop. -/
def geomDelays (d : ℚ) : Nat → List ℚ
  | 0 => []
  | n + 1 => d :: geomDelays (d * 2) n

/-! ### Concrete scenario inputs used by witnesses and counterexamples -/

def exCfg : RunCfg :=
  { toolChange := "", endCodes := "M5 M9 M30", fastZ := false,
    numericName := false, postRetries := 3, initialDelay := 1,
    fname := "Setup1", fileExt := ".nc", opFolder := "TMP" }

def exCfgF : RunCfg := { exCfg with fastZ := true }

def exGroup (frag : List String) : GroupInput :=
  { post := fun _ => .ok, openOk := fun _ => true, frag := frag,
    listing := [], opTitle := some "Op1" }

def exFrag1 : List String :=
  ["%\n", "(T1 D=3)\n", "N10 T1 M6\n", "N20 G1 X1.\n", "N30 M30\n", "%\n"]

def exFrag2 : List String :=
  ["%\n", "(T2 D=4)\n", "N10 T2 M6\n", "N20 G1 X2.\n", "N30 M30\n", "%\n"]

def exFragA : List String :=
  ["(T1 D=3)\n", "T1 M6\n", "G1 X1. Y1.\n", "G1 Z10. F50.\n", "M30\n"]

def exFragB : List String :=
  ["(T2 D=4)\n", "T2 M6\n", "G1 Z5. F50.\n", "M30\n"]

def exFragC : List String :=
  ["(T1 D=3)\n", "T1 M6\n", "G1 Z10. F50.\n", "G1 Z8.\n", "M30\n"]

def exFragD : List String :=
  ["(T2 D=4)\n", "T2 M6\n", "G1 Z2. F50.\n", "M30\n"]

def exFragE : List String :=
  ["(T1 D=3)\n", "N10 T1 M6\n", "N30 M30\n", "(TAIL ONE)\n"]

def exFragF : List String :=
  ["(T2 D=4)\n", "N10 T2 M6\n", "N30 M30\n", "(TAIL TWO)\n"]

def exFragG : List String := ["(HEADER)\n", "G90\n"]

def exGFail : GroupInput :=
  { post := fun _ => .failed, openOk := fun _ => true, frag := [],
    listing := [], opTitle := some "OpX" }

def exGStuck : GroupInput :=
  { post := fun _ => .ok, openOk := fun _ => false, frag := [],
    listing := ["8910.tap"], opTitle := some "OpX" }

def exStA : FastState := ⟨true, some 1, some 5, none, none, true, 50, false, false⟩

def exStB : FastState := ⟨true, some 1, some 3, some 9, some 5, false, 0, false, false⟩

theorem takeDigits_append (s : List Char) :
    (takeDigits s).1 ++ (takeDigits s).2 = s := by
  simp [takeDigits, List.takeWhile_append_dropWhile]

theorem takeDigits_length (s : List Char) :
    (takeDigits s).2.length ≤ s.length := by
  have h := congrArg List.length (takeDigits_append s)
  simp only [List.length_append] at h
  omega

theorem parseDecAux_length {s r : List Char} {v : ℚ}
    (h : parseDecAux s = some (v, r)) : r.length < s.length := by
  unfold parseDecAux at h
  have hlen : (takeDigits s).1.length + (takeDigits s).2.length = s.length := by
    have := congrArg List.length (takeDigits_append s)
    simpa using this
  by_cases hds : (takeDigits s).1.isEmpty
  · simp [hds] at h
  · rw [if_neg hds] at h
    have hpos : 0 < (takeDigits s).1.length := by
      rcases hq : (takeDigits s).1 with _ | _
      · rw [hq] at hds; simp at hds
      · simp [hq]
    split at h
    · rename_i r2 heq
      have h2 : r = (takeDigits r2).2 := by
        injection h with h
        injection h with h1 h2
        exact h2.symm
      subst h2
      have h3 := takeDigits_length r2
      have h4 : (takeDigits s).2.length = r2.length + 1 := by
        rw [heq]; simp
      omega
    · have h2 : r = (takeDigits s).2 := by
        injection h with h
        injection h with h1 h2
        exact h2.symm
      subst h2
      omega

theorem parseDec_length {neg : Bool} {s r : List Char} {v : ℚ}
    (h : parseDec neg s = some (v, r)) : r.length < s.length := by
  unfold parseDec at h
  by_cases hn : neg
  · rw [if_pos hn] at h
    split at h
    · rename_i t
      rcases hq : parseDecAux t with _ | ⟨p⟩ <;> rw [hq] at h <;> simp at h
      have hlt := parseDecAux_length (s := t) (r := p.2) (v := p.1) (by rw [hq])
      have h2 : r = p.2 := h.2.symm
      subst h2
      simp only [List.length_cons]
      omega
    · exact parseDecAux_length h
  · rw [if_neg hn] at h
    exact parseDecAux_length h

theorem arithFrom_append (a m k : Nat) :
    arithFrom a m ++ arithFrom (a + constLineNumInc * m) k = arithFrom a (m + k) := by
  induction m generalizing a with
  | zero => simp [arithFrom]
  | succ n ih =>
    simp only [arithFrom, List.cons_append]
    rw [show a + constLineNumInc * (n + 1) = (a + constLineNumInc) + constLineNumInc * n by ring,
        ih]
    rw [show n + 1 + k = (n + k) + 1 by ring]
    simp [arithFrom]

theorem arithFrom_length (a n : Nat) : (arithFrom a n).length = n := by
  induction n generalizing a with
  | zero => simp [arithFrom]
  | succ n ih => simp [arithFrom, ih]

theorem accExt_refl (acc : ScanAcc) : accExt acc acc :=
  ⟨⟨0, by simp [arithFrom]⟩, ⟨[], by simp⟩⟩

theorem accExt_trans {a b c : ScanAcc} (h1 : accExt a b) (h2 : accExt b c) :
    accExt a c := by
  obtain ⟨⟨k1, hn1, hl1⟩, ⟨t1, ht1, hp1⟩⟩ := h1
  obtain ⟨⟨k2, hn2, hl2⟩, ⟨t2, ht2, hp2⟩⟩ := h2
  refine ⟨⟨k1 + k2, ?_, ?_⟩, ⟨t1 ++ t2, ?_, ?_⟩⟩
  · rw [hn2, hn1, hl1, List.append_assoc, arithFrom_append]
  · rw [hl2, hl1]; ring
  · rw [ht2, ht1, List.append_assoc]
  · intro p hp
    rcases List.mem_append.mp hp with h | h
    · exact hp1 p h
    · exact hp2 p h

theorem emitToolChange_spec (tc : ToolChangeRep) (n : Nat) :
    (∃ K, (emitToolChange tc n).2.1 = arithFrom n K ∧
          (emitToolChange tc n).2.2.1 = n + constLineNumInc * K) ∧
    ((emitToolChange tc n).2.2.2 = true ↔ tcLen tc ≠ 0) := by
  cases tc with
  | txt s =>
    by_cases h : s.length = 0
    · exact ⟨⟨0, by simp [emitToolChange, h, arithFrom], by simp [emitToolChange, h]⟩,
        by simp [emitToolChange, tcLen, h]⟩
    · exact ⟨⟨0, by simp [emitToolChange, h, arithFrom], by simp [emitToolChange, h]⟩,
        by simp [emitToolChange, tcLen, h]⟩
  | numbered ls =>
    by_cases h : ls.length = 0
    · exact ⟨⟨0, by simp [emitToolChange, h, arithFrom], by simp [emitToolChange, h]⟩,
        by simp [emitToolChange, tcLen, h]⟩
    · exact ⟨⟨ls.length, by simp [emitToolChange, h], by simp [emitToolChange, h]⟩,
        by simp [emitToolChange, tcLen, h]⟩

theorem accExt_noWrite (acc : ScanAcc) (b : Bool) :
    accExt acc ⟨acc.bw, acc.nums, acc.tr, acc.lineNum, b⟩ :=
  ⟨⟨0, by simp [arithFrom], by simp [arithFrom]⟩, ⟨[], by simp⟩⟩

theorem accExt_writeN (acc : ScanAcc) (cur : String) (ws : List String) (b : Bool)
    (h : lineHasN cur = true) :
    accExt acc ⟨acc.bw ++ ws, acc.nums ++ [acc.lineNum],
      acc.tr ++ [(cur, some acc.lineNum)], acc.lineNum + constLineNumInc, b⟩ := by
  refine ⟨⟨1, by simp [arithFrom], by simp [arithFrom]⟩,
    ⟨[(cur, some acc.lineNum)], by simp, ?_⟩⟩
  intro p hp
  simp only [List.mem_singleton] at hp
  subst hp
  simp [h]

theorem accExt_write (acc : ScanAcc) (cur : String) (ws : List String) (b : Bool)
    (h : lineHasN cur = false) :
    accExt acc ⟨acc.bw ++ ws, acc.nums, acc.tr ++ [(cur, none)], acc.lineNum, b⟩ := by
  refine ⟨⟨0, by simp [arithFrom], by simp [arithFrom]⟩,
    ⟨[(cur, none)], by simp, ?_⟩⟩
  intro p hp
  simp only [List.mem_singleton] at hp
  subst hp
  simp [h]

theorem tScan_spec (fFirst : Bool) (toolLast : Option Nat) (tc : ToolChangeRep)
    (cur : String) (rest : List String) (acc : ScanAcc) :
    (∀ acc2, tScan fFirst toolLast tc cur rest acc = .exc acc2 → accExt acc acc2) ∧
    (∀ acc2, tScan fFirst toolLast tc cur rest acc = .fmtErr acc2 → accExt acc acc2) ∧
    (∀ acc2 inj tex m orig rest2,
        tScan fFirst toolLast tc cur rest acc = .ok acc2 inj tex m orig rest2 →
        accExt acc acc2 ∧ regBodyMatch orig = some m ∧
        (inj = true ↔ (fFirst = false ∧ tcLen tc ≠ 0 ∧ some tex ≠ toolLast))) := by
  induction cur, rest, acc using tScan.induct fFirst toolLast tc with
  | case1 t cur acc hm =>
    refine ⟨?_, ?_, ?_⟩
    · intro acc2 h
      simp [tScan, hm, TScanOut.exc.injEq] at h
      subst h
      exact accExt_refl acc
    · intro acc2 h
      simp [tScan, hm] at h
    · intro acc2 inj tex m orig rest2 h
      simp [tScan, hm] at h
  | case2 t cur acc m2 hm toolCur ht hf =>
    refine ⟨?_, ?_, ?_⟩
    · intro acc2 h
      simp [tScan, hm, ht, hf, if_true] at h
    · intro acc2 h
      simp [tScan, hm, ht, hf, if_true] at h
    · intro acc2 inj tex m orig rest2 h
      simp [tScan, hm, ht, hf, if_true, TScanOut.ok.injEq] at h
      obtain ⟨rfl, rfl, rfl, rfl, rfl, rfl⟩ := h
      exact ⟨accExt_refl acc, hm, by simp [hf]⟩
  | case3 t cur acc m2 hm toolCur ht hf hd hl =>
    refine ⟨?_, ?_, ?_⟩
    · intro acc2 h
      simp [tScan, hm, ht, hf, hd, hl, if_true, if_false, ite_true, ite_false] at h
    · intro acc2 h
      simp [tScan, hm, ht, hf, hd, hl, if_true, if_false, ite_true, ite_false] at h
    · intro acc2 inj tex m orig rest2 h
      simp [tScan, hm, ht, hf, hd, hl, if_true, if_false, ite_true, ite_false,
        TScanOut.ok.injEq] at h
      obtain ⟨rfl, rfl, rfl, rfl, rfl, rfl⟩ := h
      obtain ⟨⟨K, hn, hln⟩, hb⟩ := emitToolChange_spec tc acc.lineNum
      refine ⟨⟨⟨K, by simp [hn], by simp [hln]⟩, ⟨[], by simp⟩⟩, hm, ?_⟩
      simp only [Bool.not_eq_true] at hf
      simp [hb, hf, hd, hl]
  | case4 t cur acc m2 hm toolCur ht hf hd hl =>
    refine ⟨?_, ?_, ?_⟩
    · intro acc2 h
      simp [tScan, hm, ht, hf, hd, hl, if_true, if_false, ite_true, ite_false] at h
    · intro acc2 h
      simp [tScan, hm, ht, hf, hd, hl, if_true, if_false, ite_true, ite_false] at h
    · intro acc2 inj tex m orig rest2 h
      simp [tScan, hm, ht, hf, hd, hl, if_true, if_false, ite_true, ite_false,
        TScanOut.ok.injEq] at h
      obtain ⟨rfl, rfl, rfl, rfl, rfl, rfl⟩ := h
      refine ⟨accExt_refl acc, hm, ?_⟩
      simp only [ne_eq, Decidable.not_not] at hl
      simp [hl]
  | case5 t cur acc m2 hm toolCur ht hf hd l2 r2 hrl hm2 =>
    refine ⟨?_, ?_, ?_⟩
    · intro acc2 h
      simp [tScan, hm, ht, hf, hd, hrl, hm2, if_true, if_false, ite_true, ite_false,
        TScanOut.exc.injEq] at h
      subst h
      exact accExt_refl acc
    · intro acc2 h
      simp [tScan, hm, ht, hf, hd, hrl, hm2, if_true, if_false, ite_true, ite_false] at h
    · intro acc2 inj tex m orig rest2 h
      simp [tScan, hm, ht, hf, hd, hrl, hm2, if_true, if_false, ite_true, ite_false] at h
  | case6 t cur acc m2 hm toolCur ht hf hd l2 r2 hrl m3 hm2 =>
    refine ⟨?_, ?_, ?_⟩
    · intro acc2 h
      simp [tScan, hm, ht, hf, hd, hrl, hm2, if_true, if_false, ite_true, ite_false] at h
    · intro acc2 h
      simp [tScan, hm, ht, hf, hd, hrl, hm2, if_true, if_false, ite_true, ite_false] at h
    · intro acc2 inj tex m orig rest2 h
      simp [tScan, hm, ht, hf, hd, hrl, hm2, if_true, if_false, ite_true, ite_false,
        TScanOut.ok.injEq] at h
      obtain ⟨rfl, rfl, rfl, rfl, rfl, rfl⟩ := h
      refine ⟨accExt_refl acc, hm2, ?_⟩
      simp only [ne_eq, Decidable.not_not] at hd
      simp [hd]
  | case7 cur acc m2 hm ht =>
    refine ⟨?_, ?_, ?_⟩
    · intro acc2 h
      simp [tScan, hm, ht] at h
    · intro acc2 h
      simp [tScan, hm, ht, TScanOut.fmtErr.injEq] at h
      subst h
      by_cases hg : (fFirst = true ∨ m2.restLine.data.head? = some '(')
      · by_cases hn : m2.hasN = true
        · simp only [hg, if_true, hn]
          refine ⟨⟨1, by simp [arithFrom], by simp [arithFrom]⟩,
            ⟨[(cur, some acc.lineNum)], by simp, ?_⟩⟩
          intro p hp
          simp only [List.mem_singleton] at hp
          subst hp
          simp [lineHasN, hm, hn]
        · simp only [hg, if_true, hn, if_false]
          refine ⟨⟨0, by simp [arithFrom], by simp [arithFrom]⟩,
            ⟨[(cur, none)], by simp, ?_⟩⟩
          intro p hp
          simp only [List.mem_singleton] at hp
          subst hp
          simp only [Bool.not_eq_true] at hn
          simp [lineHasN, hm, hn]
      · simp only [hg, if_false]
        exact accExt_refl acc
    · intro acc2 inj tex m orig rest2 h
      simp [tScan, hm, ht] at h
  | case8 cur acc m2 hm ht accA l r accB ih =>
    obtain ⟨ihe, ihf, iho⟩ := ih
    have key : accExt acc accB := by
      unfold_let accB accA
      split
      · split
        · split
          · next hn => exact accExt_writeN acc cur _ _ (by simp [lineHasN, hm, hn])
          · next hn =>
            exact accExt_write acc cur _ _
              (by simp only [lineHasN, hm]; simpa using hn)
        · exact accExt_noWrite acc _
      · split
        · split
          · next hn => exact accExt_writeN acc cur _ _ (by simp [lineHasN, hm, hn])
          · next hn =>
            exact accExt_write acc cur _ _
              (by simp only [lineHasN, hm]; simpa using hn)
        · exact accExt_refl acc
    have hrec : tScan fFirst toolLast tc cur (l :: r) acc =
        tScan fFirst toolLast tc l r accB := by
      unfold_let accB accA
      conv_lhs => rw [tScan]
      simp only [hm, ht]
    refine ⟨?_, ?_, ?_⟩
    · intro acc2 h
      rw [hrec] at h
      exact accExt_trans key (ihe acc2 h)
    · intro acc2 h
      rw [hrec] at h
      exact accExt_trans key (ihf acc2 h)
    · intro acc2 inj tex m orig rest2 h
      rw [hrec] at h
      obtain ⟨ha, hb2, hc⟩ := iho acc2 inj tex m orig rest2 h
      exact ⟨accExt_trans key ha, hb2, hc⟩

theorem accExt_writeLine (m : BodyMatch) (orig line : String) (acc : ScanAcc)
    (h : regBodyMatch orig = some m) : accExt acc (writeLine m orig line acc) := by
  unfold writeLine
  by_cases hn : m.hasN = true
  · rw [if_pos hn]
    exact accExt_writeN acc orig _ _ (by simp [lineHasN, h, hn])
  · rw [if_neg hn]
    exact accExt_write acc orig _ _ (by simp only [lineHasN, h]; simpa using hn)

theorem bodyLoop_spec (endM endG : List Nat) :
    ∀ (m : BodyMatch) (orig : String) (lineFull : Option String)
      (rest : List String) (fast : FastState) (acc : ScanAcc),
      regBodyMatch orig = some m →
      (∀ acc2 f2, bodyLoop endM endG m orig lineFull rest fast acc = .exc acc2 f2 →
        accExt acc acc2) ∧
      (∀ acc2 f2 lf2 r2,
        bodyLoop endM endG m orig lineFull rest fast acc = .ok acc2 f2 lf2 r2 →
        accExt acc acc2) := by
  intro m orig lineFull rest fast acc
  induction m, orig, lineFull, rest, fast, acc using bodyLoop.induct endM endG with
  | case1 t m orig lineFull fast acc h1 =>
    intro hOrig
    refine ⟨?_, ?_⟩
    · intro acc2 f2 h
      rw [bodyLoop, if_pos h1] at h
      exact BodyOut.noConfusion h
    · intro acc2 f2 lf2 r2 h
      rw [bodyLoop, if_pos h1] at h
      obtain ⟨rfl, rfl, rfl, rfl⟩ := BodyOut.ok.inj h
      exact accExt_refl acc
  | case2 t m orig lineFull fast acc h1 h2 =>
    intro hOrig
    refine ⟨?_, ?_⟩
    · intro acc2 f2 h
      rw [bodyLoop, if_neg h1, if_pos h2] at h
      exact BodyOut.noConfusion h
    · intro acc2 f2 lf2 r2 h
      rw [bodyLoop, if_neg h1, if_pos h2] at h
      obtain ⟨rfl, rfl, rfl, rfl⟩ := BodyOut.ok.inj h
      exact accExt_refl acc
  | case3 m orig lineFull fast acc h1 h2 =>
    intro hOrig
    refine ⟨?_, ?_⟩
    · intro acc2 f2 h
      rw [bodyLoop, if_neg h1, if_neg h2] at h
      exact BodyOut.noConfusion h
    · intro acc2 f2 lf2 r2 h
      rw [bodyLoop, if_neg h1, if_neg h2] at h
      obtain ⟨rfl, rfl, rfl, rfl⟩ := BodyOut.ok.inj h
      exact accExt_writeLine m orig _ acc hOrig
  | case4 m orig lineFull fast acc h1 h2 l r hl =>
    intro hOrig
    refine ⟨?_, ?_⟩
    · intro acc2 f2 h
      rw [bodyLoop, if_neg h1, if_neg h2] at h
      simp only [hl] at h
      obtain ⟨rfl, rfl⟩ := BodyOut.exc.inj h
      exact accExt_writeLine m orig _ acc hOrig
    · intro acc2 f2 lf2 r2 h
      rw [bodyLoop, if_neg h1, if_neg h2] at h
      simp only [hl] at h
      exact BodyOut.noConfusion h
  | case5 m orig lineFull fast acc h1 fastA h2 fl accA l r m2 hl ih =>
    intro hOrig
    obtain ⟨ihe, iho⟩ := ih hl
    have key : accExt acc (writeLine m orig (fastZstep (lockStep m fast) m.restLine).2 acc) :=
      accExt_writeLine m orig _ acc hOrig
    have hrec : bodyLoop endM endG m orig lineFull (l :: r) fast acc =
        bodyLoop endM endG m2 l (some l) r (fastZstep (lockStep m fast) m.restLine).1
          (writeLine m orig (fastZstep (lockStep m fast) m.restLine).2 acc) := by
      rw [bodyLoop, if_neg h1, if_neg h2]
      simp only [hl]
    refine ⟨?_, ?_⟩
    · intro acc2 f2 h
      rw [hrec] at h
      exact accExt_trans key (ihe acc2 f2 h)
    · intro acc2 f2 lf2 r2 h
      rw [hrec] at h
      exact accExt_trans key (iho acc2 f2 lf2 r2 h)

theorem tailWrite_go_spec :
    ∀ (ls : List String) (n : Nat) (ws : List String) (ns : List Nat)
      (tr : List (String × Option Nat)) (n2 : Nat),
      tailWrite.go ls n = some (ws, ns, tr, n2) →
      (∃ k, ns = arithFrom n k ∧ n2 = n + constLineNumInc * k) ∧
      (∀ p ∈ tr, Option.isSome p.2 = lineHasN p.1) := by
  intro ls
  induction ls with
  | nil =>
    intro n ws ns tr n2 h
    simp only [tailWrite.go, Option.some.injEq] at h
    obtain ⟨rfl, rfl, rfl, rfl⟩ := h
    exact ⟨⟨0, by simp [arithFrom], by simp [arithFrom]⟩, by simp⟩
  | cons c cs ih =>
    intro n ws ns tr n2 h
    rw [tailWrite.go] at h
    split at h
    · exact Option.noConfusion h
    · rename_i m hm
      by_cases hn : m.hasN = true
      · rw [if_pos hn] at h
        rcases hgo : tailWrite.go cs (n + constLineNumInc) with _ | ⟨ws2, ns2, tr2, nn2⟩ <;>
          rw [hgo] at h
        · exact Option.noConfusion h
        · obtain ⟨rfl, rfl, rfl, rfl⟩ := Option.some.inj h
          obtain ⟨⟨k, hk1, hk2⟩, htr⟩ := ih (n + constLineNumInc) ws2 ns2 tr2 n2 hgo
          refine ⟨⟨k + 1, ?_, ?_⟩, ?_⟩
          · rw [show arithFrom n (k + 1) = n :: arithFrom (n + constLineNumInc) k from rfl, hk1]
          · rw [hk2]; ring
          · intro p hp
            rcases List.mem_cons.mp hp with rfl | hp2
            · simp [lineHasN, hm, hn]
            · exact htr p hp2
      · rw [if_neg hn] at h
        rcases hgo : tailWrite.go cs n with _ | ⟨ws2, ns2, tr2, nn2⟩ <;>
          rw [hgo] at h
        · exact Option.noConfusion h
        · obtain ⟨rfl, rfl, rfl, rfl⟩ := Option.some.inj h
          obtain ⟨⟨k, hk1, hk2⟩, htr⟩ := ih n ws2 ns tr2 n2 hgo
          refine ⟨⟨k, hk1, hk2⟩, ?_⟩
          intro p hp
          rcases List.mem_cons.mp hp with rfl | hp2
          · simp only [lineHasN, hm]
            simpa using hn
          · exact htr p hp2

/-- Everything the run-level invariants need from one successful group:
numbering continues the per-setup arithmetic progression, the trace extends
with correctly-numbered lines, `fFirst` clears, the tool and fast-Z state
chain, the tail is captured exactly on the first group, and injection
happens exactly on a non-first group with a nonempty snippet and a
differing tool. -/
theorem groupStep_ok (cfg : RunCfg) (tc : ToolChangeRep) (endM endG : List Nat)
    (g : GroupInput) (st st2 : GState) (gh : GroupGhost)
    (h : groupStep cfg tc endM endG g st = .ok st2 gh) :
    (∃ k, st2.nums = st.nums ++ arithFrom st.lineNum k ∧
          st2.lineNum = st.lineNum + constLineNumInc * k) ∧
    (∃ ts, st2.frTrace = st.frTrace ++ ts ∧
           ∀ p ∈ ts, Option.isSome p.2 = lineHasN p.1) ∧
    st2.fFirst = false ∧
    gh.fFirstEntry = st.fFirst ∧
    gh.toolEntry = st.toolLast ∧
    st2.toolLast = some gh.toolExit ∧
    gh.tailSet.isSome = st.fFirst ∧
    st2.tailGcode = (if st.fFirst then gh.tailSet else st.tailGcode) ∧
    gh.fastEntry = initFast cfg.fastZ st.zLast ∧
    st2.zLast = gh.fastExit.Zlast ∧
    (gh.injected = true ↔
      (st.fFirst = false ∧ tcLen tc ≠ 0 ∧ some gh.toolExit ≠ st.toolLast)) := by
  simp only [groupStep] at h
  repeat' (first | exact StepOut.noConfusion h | split at h)
  all_goals obtain ⟨h1, h2⟩ := StepOut.ok.inj h
  all_goals subst h1
  all_goals subst h2
  all_goals obtain ⟨hA1, hOrig, hInj⟩ := (tScan_spec _ _ tc _ _ _).2.2 _ _ _ _ _ _ (by assumption)
  all_goals obtain hA2 := (bodyLoop_spec endM endG _ _ _ _ _ _ hOrig).2 _ _ _ _ (by assumption)
  all_goals obtain ⟨⟨k, hk1, hk2⟩, ⟨ts, hts, htsp⟩⟩ := accExt_trans hA1 hA2
  all_goals refine ⟨⟨k, ?_, ?_⟩, ⟨ts, ?_, htsp⟩, ?_, ?_, ?_, ?_, ?_, ?_, ?_, ?_, ?_⟩
  all_goals first
    | rfl
    | exact hInj
    | simp [hk1, hk2, hts, *]

theorem processGroups_ok (cfg : RunCfg) (tc : ToolChangeRep) (endM endG : List Nat) :
    ∀ (gl : List GroupInput) (st st2 : GState) (gs : List GroupGhost),
    processGroups cfg tc endM endG gl st = .ok st2 gs →
    (∃ k, st2.nums = st.nums ++ arithFrom st.lineNum k ∧
          st2.lineNum = st.lineNum + constLineNumInc * k) ∧
    (∃ ts, st2.frTrace = st.frTrace ++ ts ∧
           ∀ p ∈ ts, Option.isSome p.2 = lineHasN p.1) ∧
    ghostChain cfg.fastZ st.fFirst st.toolLast st.zLast gs ∧
    st2.tailGcode = (match gs with
      | [] => st.tailGcode
      | g0 :: _ => if st.fFirst then g0.tailSet else st.tailGcode) ∧
    (∀ gg ∈ gs, gg.injected = true ↔
       (gg.fFirstEntry = false ∧ tcLen tc ≠ 0 ∧ some gg.toolExit ≠ gg.toolEntry)) ∧
    gs.length = gl.length := by
  intro gl
  induction gl with
  | nil =>
    intro st st2 gs h
    simp only [processGroups, GroupsOut.ok.injEq] at h
    obtain ⟨rfl, rfl⟩ := h
    exact ⟨⟨0, by simp [arithFrom], by simp [arithFrom]⟩, ⟨[], by simp, by simp⟩,
      trivial, rfl, by simp, rfl⟩
  | cons g rest ih =>
    intro st st2 gs h
    rw [processGroups] at h
    rcases hstep : groupStep cfg tc endM endG g st with ⟨st1, gh⟩ | ⟨m, s⟩ | s <;>
      rw [hstep] at h
    · have h2 : (match processGroups cfg tc endM endG rest st1 with
          | GroupsOut.ok st3 gs2 => GroupsOut.ok st3 (gh :: gs2)
          | GroupsOut.ret m s => GroupsOut.ret m s
          | GroupsOut.exc s => GroupsOut.exc s) = GroupsOut.ok st2 gs := h
      clear h
      rcases hrec : processGroups cfg tc endM endG rest st1 with ⟨st3, gs2⟩ | ⟨m, s⟩ | s <;>
        rw [hrec] at h2
      · obtain ⟨rfl, rfl⟩ := GroupsOut.ok.inj h2
        obtain ⟨⟨k1, hk1, hl1⟩, ⟨t1, ht1, hp1⟩, hff, hfe, hte, htl, hts, htg, hfa, hzl, hinj⟩ :=
          groupStep_ok cfg tc endM endG g st st1 gh hstep
        obtain ⟨⟨k2, hk2, hl2⟩, ⟨t2, ht2, hp2⟩, hch, htg2, hinj2, hlen⟩ :=
          ih st1 st3 gs2 hrec
        refine ⟨⟨k1 + k2, ?_, ?_⟩, ⟨t1 ++ t2, ?_, ?_⟩, ?_, ?_, ?_, ?_⟩
        · rw [hk2, hk1, hl1, List.append_assoc, arithFrom_append]
        · rw [hl2, hl1]; ring
        · rw [ht2, ht1, List.append_assoc]
        · intro p hp
          rcases List.mem_append.mp hp with hx | hx
          · exact hp1 p hx
          · exact hp2 p hx
        · exact ⟨hfe, hte, hfa, hts, by rw [← hff, ← htl, ← hzl]; exact hch⟩
        · rcases gs2 with _ | ⟨g2, gs3⟩
          · simp only [htg2, htg]
          · simp only [htg2, htg, hff]
            simp
        · intro gg hg
          rcases List.mem_cons.mp hg with rfl | hx
          · rw [hinj, hfe, hte]
          · exact hinj2 gg hx
        · simp [hlen]
      · exact GroupsOut.noConfusion h2
      · exact GroupsOut.noConfusion h2
    · exact GroupsOut.noConfusion h
    · exact GroupsOut.noConfusion h

/-- What a successful (`msg = none`) run of the split processor guarantees:
the group loop completed, the ghosts are the loop's ghosts, the tail used is
the captured one, and the numbering trace extends through the tail write. -/
theorem run_success_spec (cfg : RunCfg) (groups : List GroupInput) (out : RunOut)
    (h : postProcessSetupSplit cfg groups = out) (hm : out.msg = none) :
    ∃ st gs, processGroups cfg (preprocessToolChange cfg.toolChange)
        (findIntCodes 'M' cfg.endCodes.data) (findIntCodes 'G' cfg.endCodes.data)
        groups initGState = .ok st gs ∧
      out.gs = gs ∧
      out.tailUsed = st.tailGcode ∧
      (∃ k2, out.nums = st.nums ++ arithFrom st.lineNum k2) ∧
      (∃ ts2, out.frTrace = st.frTrace ++ ts2 ∧
              ∀ p ∈ ts2, Option.isSome p.2 = lineHasN p.1) := by
  simp only [postProcessSetupSplit] at h
  split at h
  · subst h; exact Option.noConfusion hm
  · subst h; exact Option.noConfusion hm
  · rename_i st gs hpg
    split at h
    · subst h; exact Option.noConfusion hm
    · rename_i tail htail
      split at h
      · subst h; exact Option.noConfusion hm
      · rename_i tw ws ns ttr n3 htw
        subst h
        refine ⟨st, gs, hpg, rfl, by simp [htail], ?_, ?_⟩
        · by_cases hlen : tail.length ≠ 0
          · rw [if_pos hlen] at htw
            obtain ⟨⟨k, hk1, _⟩, _⟩ :=
              tailWrite_go_spec (splitlinesKeep tail) st.lineNum ws ns ttr n3 htw
            exact ⟨k, by simp [hk1]⟩
          · rw [if_neg hlen] at htw
            obtain ⟨rfl, rfl, rfl, rfl⟩ := Option.some.inj htw
            exact ⟨0, by simp [arithFrom]⟩
        · by_cases hlen : tail.length ≠ 0
          · rw [if_pos hlen] at htw
            obtain ⟨_, htr⟩ :=
              tailWrite_go_spec (splitlinesKeep tail) st.lineNum ws ns ttr n3 htw
            exact ⟨ttr, rfl, htr⟩
          · rw [if_neg hlen] at htw
            obtain ⟨rfl, rfl, rfl, rfl⟩ := Option.some.inj htw
            exact ⟨[], by simp, by simp⟩

theorem ghostChain_fastEntry (fz : Bool) :
    ∀ (gs : List GroupGhost) (fF : Bool) (tl : Option Nat) (zl : Option ℚ),
    ghostChain fz fF tl zl gs →
    ∀ gg ∈ gs, ∃ zl2, gg.fastEntry = initFast fz zl2 := by
  intro gs
  induction gs with
  | nil => intro fF tl zl hc gg hg; simp at hg
  | cons g0 rest ih =>
    intro fF tl zl hc gg hg
    obtain ⟨h1, h2, h3, h4, h5⟩ := hc
    rcases List.mem_cons.mp hg with rfl | hx
    · exact ⟨zl, h3⟩
    · exact ih false (some g0.toolExit) g0.fastExit.Zlast h5 gg hx

theorem ghostChain_tailNone (fz : Bool) :
    ∀ (gs : List GroupGhost) (tl : Option Nat) (zl : Option ℚ),
    ghostChain fz false tl zl gs → ∀ gg ∈ gs, gg.tailSet = none := by
  intro gs
  induction gs with
  | nil => intro tl zl hc gg hg; simp at hg
  | cons g0 rest ih =>
    intro tl zl hc gg hg
    obtain ⟨h1, h2, h3, h4, h5⟩ := hc
    rcases List.mem_cons.mp hg with rfl | hx
    · rcases hgt : gg.tailSet with _ | t
      · rfl
      · rw [hgt] at h4; simp at h4
    · exact ih (some g0.toolExit) g0.fastExit.Zlast h5 gg hx

theorem retrieveLoopN_exhaust (g : GroupInput) (opN fE oP : String)
    (hpost : ∀ k, g.post k = .ok) (hopen : ∀ k, g.openOk k = false) :
    ∀ (n : Nat) (d : ℚ) (k : Nat),
      retrieveLoopN g opN fE oP n d k =
        ⟨.error (scanDirMsg g.listing opN fE oP), geomDelays d (max n 1), max n 1⟩ := by
  intro n
  induction n with
  | zero =>
    intro d k
    simp only [retrieveLoopN, hpost k, hopen k]
    simp [geomDelays]
  | succ m ih =>
    intro d k
    simp only [retrieveLoopN, hpost k, hopen k]
    rcases m with _ | r
    · simp [geomDelays]
    · have hne : ¬ (r + 1 = 0) := by omega
      have h1 : max (r + 1) 1 = r + 1 := by omega
      have h2 : max (r + 1 + 1) 1 = r + 1 + 1 := by omega
      have hrec := ih (d * 2) (k + 1)
      rw [h1] at hrec
      rw [h2]
      simp [hne, hrec, geomDelays]

theorem retrieveLoop_exhaust (g : GroupInput) (opN fE oP : String)
    (hpost : ∀ k, g.post k = .ok) (hopen : ∀ k, g.openOk k = false) :
    ∀ (n : Nat) (R : Int) (d : ℚ) (k : Nat), R.toNat = n →
      retrieveLoop g opN fE oP R d k =
        ⟨.error (scanDirMsg g.listing opN fE oP), geomDelays d (max n 1), max n 1⟩ := by
  intro n R d k hR
  rw [retrieveLoop, hR]
  exact retrieveLoopN_exhaust g opN fE oP hpost hopen n d k

/-! ### Claim theorems -/

/-- C1 (amended): in every setup processed successfully in split mode, the
tail text appended after the merged body is the one captured from the
FIRST group's fragment, and no later group captures a tail (their tail
lines are discarded). -/
theorem C1_tail_from_first_group (cfg : RunCfg) (groups : List GroupInput)
    (out : RunOut) (h : postProcessSetupSplit cfg groups = out)
    (hm : out.msg = none) :
    out.tailUsed = (match out.gs with
      | [] => none
      | g0 :: _ => g0.tailSet) ∧
    ∀ gg ∈ out.gs.tail, gg.tailSet = none := by
  obtain ⟨st, gs, hpg, hgs, htail, _, _⟩ := run_success_spec cfg groups out h hm
  obtain ⟨_, _, hch, htg, _, _⟩ :=
    processGroups_ok cfg _ _ _ groups initGState st gs hpg
  constructor
  · rw [htail, htg, hgs]
    rcases gs with _ | ⟨g0, rest⟩
    · rfl
    · simp [initGState]
  · rw [hgs]
    rcases gs with _ | ⟨g0, rest⟩
    · simp
    · obtain ⟨_, _, _, _, h5⟩ := hch
      intro gg hg
      exact ghostChain_tailNone cfg.fastZ rest _ _ h5 gg hg

/-- Witness for C1 at a concrete two-group setup. -/
theorem C1_tail_from_first_group_witness :
    (postProcessSetupSplit exCfg [exGroup exFragE, exGroup exFragF]).tailUsed =
      (match (postProcessSetupSplit exCfg [exGroup exFragE, exGroup exFragF]).gs with
        | [] => none
        | g0 :: _ => g0.tailSet) :=
  (C1_tail_from_first_group exCfg [exGroup exFragE, exGroup exFragF] _ rfl rfl).1

/-- C1 counterexample: the two fragments end in different tails; the
assembled output carries the first group's tail, not the last group's. -/
theorem C1_counterexample :
    (postProcessSetupSplit exCfg [exGroup exFragE, exGroup exFragF]).msg = none ∧
    (postProcessSetupSplit exCfg [exGroup exFragE, exGroup exFragF]).tailUsed =
      some "N30 M30\n(TAIL ONE)\n" ∧
    (postProcessSetupSplit exCfg [exGroup exFragE, exGroup exFragF]).gs.map
      GroupGhost.tailSet = [some "N30 M30\n(TAIL ONE)\n", none] ∧
    String.join ((postProcessSetupSplit exCfg [exGroup exFragE, exGroup exFragF]).disk.head.getD [])
      = "(T1 D=3)\n(T2 D=4)\nN10 T1 M6\nN15 T2 M6\nN20 M30\n(TAIL ONE)\n" ∧
    exFragF = ["(T2 D=4)\n", "N10 T2 M6\n", "N30 M30\n", "(TAIL TWO)\n"] ∧
    "N30 M30\n(TAIL ONE)\n" ≠ "N30 M30\n(TAIL TWO)\n" := by
  refine ⟨rfl, rfl, rfl, rfl, rfl, by decide⟩

/-- C2 (amended): the temporary files are removed when the setup completes
normally and on the exception path of the outer handler (which also removes
the output file); on early error returns the partially written output file
and the temporary body file remain on disk. -/
theorem C2_cleanup_paths (cfg : RunCfg) (groups : List GroupInput) (out : RunOut)
    (h : postProcessSetupSplit cfg groups = out) :
    (out.kind = .success → out.msg = none ∧ out.disk.body = none ∧ out.disk.op = none) ∧
    (out.kind = .excCaught → out.disk = ⟨none, none, none⟩) ∧
    (out.kind = .errReturn → out.msg ≠ none ∧ out.disk.head ≠ none ∧ out.disk.body ≠ none) := by
  simp only [postProcessSetupSplit] at h
  split at h
  · subst h; simp
  · subst h; simp
  · split at h
    · subst h; simp
    · split at h
      · subst h; simp
      · subst h; simp

/-- Witness for C2 at a concrete failing input (missing tool line). -/
theorem C2_cleanup_paths_witness :
    (postProcessSetupSplit exCfg [exGroup exFragG]).msg ≠ none ∧
    (postProcessSetupSplit exCfg [exGroup exFragG]).disk.head ≠ none ∧
    (postProcessSetupSplit exCfg [exGroup exFragG]).disk.body ≠ none :=
  (C2_cleanup_paths exCfg [exGroup exFragG] _ rfl).2.2 rfl

/-- C2 counterexample: a fragment with no tool line makes the setup fail via
an early `return`; the output file, the body temp file and the fragment
temp file all remain on disk. -/
theorem C2_counterexample :
    (postProcessSetupSplit exCfg [exGroup exFragG]).msg =
      some "Tool change G-code (Txx) not found; this post processor is not compatible with Post Process All." ∧
    (postProcessSetupSplit exCfg [exGroup exFragG]).disk.head = some ["(HEADER)\n"] ∧
    (postProcessSetupSplit exCfg [exGroup exFragG]).disk.body = some ["G90\n"] ∧
    (postProcessSetupSplit exCfg [exGroup exFragG]).disk.op = some exFragG := by
  refine ⟨rfl, rfl, rfl, rfl⟩

/-- C5 (amended): a nonempty snippet that starts with a line-number
placeholder has the placeholder stripped and EVERY line renumbered with
consecutive counter values; a snippet without a placeholder is emitted as
one verbatim, unnumbered write. -/
theorem C5_snippet_renumber_all :
    (∀ (ls : List String) (n i : Nat) (h1 : i < ls.length)
       (h2 : i < (numberLines ls n).length),
       (numberLines ls n).get ⟨i, h2⟩ =
         "N" ++ toString (n + constLineNumInc * i) ++ " " ++ ls.get ⟨i, h1⟩) ∧
    (∀ (ls : List String), ls.length ≠ 0 → ∀ n,
       (emitToolChange (.numbered ls) n).1 = numberLines ls n) ∧
    (∀ (s : String), s.length ≠ 0 → ∀ n,
       (emitToolChange (.txt s) n).1 = [s]) := by
  refine ⟨?_, ?_, ?_⟩
  · intro ls
    induction ls with
    | nil => intro n i h1 h2; simp at h1
    | cons l rest ih =>
      intro n i h1 h2
      cases i with
      | zero => simp [numberLines]
      | succ j =>
        have hj1 : j < rest.length := by simpa using h1
        have hj2 : j < (numberLines rest (n + constLineNumInc)).length := by
          simp only [numberLines, List.length_cons] at h2
          omega
        have := ih (n + constLineNumInc) j hj1 hj2
        simp only [numberLines, List.get_cons_succ]
        rw [this]
        congr 2
        ring
  · intro ls hls n
    simp [emitToolChange, hls]
  · intro s hs n
    simp [emitToolChange, hs]

/-- Witness for C5: the second snippet line also receives a number. -/
theorem C5_snippet_renumber_all_witness :
    (numberLines ["G30\n", "M9\n"] 40).get ⟨1, by decide⟩ =
      "N" ++ toString (40 + constLineNumInc * 1) ++ " " ++
        (["G30\n", "M9\n"] : List String).get ⟨1, by decide⟩ :=
  C5_snippet_renumber_all.1 ["G30\n", "M9\n"] 40 1 (by decide) (by decide)

/-- C5 counterexample: with snippet `N10 G30:M9` the injector numbers BOTH
lines; the second line is not copied verbatim. -/
theorem C5_counterexample :
    preprocessToolChange "N10 G30:M9" = .numbered ["G30\n", "M9\n"] ∧
    (emitToolChange (preprocessToolChange "N10 G30:M9") 40).1 =
      ["N40 G30\n", "N45 M9\n"] ∧
    (emitToolChange (preprocessToolChange "N10 G30:M9") 40).1.getLast? ≠
      some "M9\n" := by
  refine ⟨rfl, rfl, by decide⟩

/-- C6: tool-change text is emitted exactly on a non-first group whose tool
differs from the previous group's (and only when the snippet is nonempty);
in the concrete empty-snippet scenario with tools 1 then 2, the output body
is both groups' lines renumbered 10,15,…, with nothing inserted. -/
theorem C6_injection_per_transition :
    (∀ (cfg : RunCfg) (groups : List GroupInput) (out : RunOut),
       postProcessSetupSplit cfg groups = out → out.msg = none →
       ghostChain cfg.fastZ true none none out.gs ∧
       ∀ gg ∈ out.gs, (gg.injected = true ↔
         (gg.fFirstEntry = false ∧ tcLen (preprocessToolChange cfg.toolChange) ≠ 0 ∧
          some gg.toolExit ≠ gg.toolEntry))) ∧
    ((postProcessSetupSplit exCfg [exGroup exFrag1, exGroup exFrag2]).msg = none ∧
     String.join ((postProcessSetupSplit exCfg [exGroup exFrag1, exGroup exFrag2]).disk.head.getD []) =
       "%\n(T1 D=3)\n(T2 D=4)\nN10 T1 M6\nN15 G1 X1.\nN20 T2 M6\nN25 G1 X2.\nN30 M30\n%\n" ∧
     (postProcessSetupSplit exCfg [exGroup exFrag1, exGroup exFrag2]).gs.map
       GroupGhost.injected = [false, false] ∧
     (postProcessSetupSplit exCfg [exGroup exFrag1, exGroup exFrag2]).nums =
       [10, 15, 20, 25, 30]) := by
  constructor
  · intro cfg groups out h hm
    obtain ⟨st, gs, hpg, hgs, _, _, _⟩ := run_success_spec cfg groups out h hm
    obtain ⟨_, _, hch, _, hinj, _⟩ :=
      processGroups_ok cfg _ _ _ groups initGState st gs hpg
    subst hgs
    exact ⟨hch, hinj⟩
  · exact ⟨rfl, rfl, rfl, rfl⟩

/-- Witness for C6 at a concrete successful run. -/
theorem C6_injection_per_transition_witness :
    ghostChain exCfg.fastZ true none none
      (postProcessSetupSplit exCfg [exGroup exFrag1, exGroup exFrag2]).gs :=
  (C6_injection_per_transition.1 exCfg [exGroup exFrag1, exGroup exFrag2] _ rfl rfl).1

/-- C7: in every successful split run, all line numbers handed out (body,
injected snippet and tail) form one arithmetic progression 10, 15, 20, …
with the fixed step and no resets, and a written fragment line receives a
number exactly when its source line carried one. -/
theorem C7_renumbering (cfg : RunCfg) (groups : List GroupInput) (out : RunOut)
    (h : postProcessSetupSplit cfg groups = out) (hm : out.msg = none) :
    out.nums = arithFrom 10 out.nums.length ∧
    ∀ p ∈ out.frTrace, Option.isSome p.2 = lineHasN p.1 := by
  obtain ⟨st, gs, hpg, _, _, ⟨k2, hnums⟩, ⟨ts2, htr2, hp2⟩⟩ :=
    run_success_spec cfg groups out h hm
  obtain ⟨⟨k1, hk1, hl1⟩, ⟨t1, ht1, hp1⟩, _, _, _, _⟩ :=
    processGroups_ok cfg _ _ _ groups initGState st gs hpg
  have hst : st.nums = arithFrom 10 k1 := by
    rw [hk1]; simp [initGState]
  have hln : st.lineNum = 10 + constLineNumInc * k1 := by
    rw [hl1]; simp [initGState]
  constructor
  · rw [hnums, hst, hln, arithFrom_append]
    have hlen : (arithFrom 10 (k1 + k2)).length = k1 + k2 := arithFrom_length 10 (k1 + k2)
    rw [hlen]
  · intro p hp
    rw [htr2] at hp
    rcases List.mem_append.mp hp with hx | hx
    · rw [ht1] at hx
      rcases List.mem_append.mp hx with hy | hy
      · simp [initGState] at hy
      · exact hp1 p hy
    · exact hp2 p hx

/-- Witness for C7 at a concrete successful two-group run. -/
theorem C7_renumbering_witness :
    (postProcessSetupSplit exCfg [exGroup exFrag1, exGroup exFrag2]).nums =
      arithFrom 10
        (postProcessSetupSplit exCfg [exGroup exFrag1, exGroup exFrag2]).nums.length :=
  (C7_renumbering exCfg [exGroup exFrag1, exGroup exFrag2] _ rfl rfl).1

/-- C3 (amended): a parse exception inside the rapid-move pass is caught
locally — the current line is copied through unmodified and the rewriter is
disabled for the rest of the CURRENT group — but not for the remainder of
the setup: every group re-initialises the enable flag from the add-in
setting, so a later group runs the rewriter again. -/
theorem C3_heuristic_exception_scope :
    (∀ (st st2 : FastState) (line : String),
       st.fFastZ = true → (parseLineR line).matched = true →
       fastTry st (parseLineR line) line = .error st2 →
       fastZstep st line = ({ st2 with fFastZ := false }, line)) ∧
    (∀ (st : FastState) (line : String), st.fFastZ = false →
       fastZstep st line = (st, line)) ∧
    (∀ (cfg : RunCfg) (groups : List GroupInput) (out : RunOut),
       postProcessSetupSplit cfg groups = out → out.msg = none →
       ∀ gg ∈ out.gs, gg.fastEntry.fFastZ = cfg.fastZ) := by
  refine ⟨?_, ?_, ?_⟩
  · intro st st2 line h1 h2 h3
    simp [fastZstep, h1, h2, h3]
  · intro st line h
    simp [fastZstep, h]
  · intro cfg groups out h hm gg hgg
    obtain ⟨st, gs, hpg, hgs, _, _, _⟩ := run_success_spec cfg groups out h hm
    obtain ⟨_, _, hch, _, _, _⟩ :=
      processGroups_ok cfg _ _ _ groups initGState st gs hpg
    rw [hgs] at hgg
    obtain ⟨zl2, hfe⟩ :=
      ghostChain_fastEntry cfg.fastZ gs initGState.fFirst initGState.toolLast
        initGState.zLast hch gg hgg
    rw [hfe]
    rfl

/-- Witness for C3 at a concrete raising line and a concrete disabled
state. -/
theorem C3_heuristic_exception_scope_witness :
    fastZstep (initFast true none) "G1 X1. Y1.\n" =
      ({ ({ initFast true none with Gcode := some 1 } : FastState) with
          fFastZ := false }, "G1 X1. Y1.\n") ∧
    fastZstep (initFast false none) "G1 Z5. F50.\n" =
      (initFast false none, "G1 Z5. F50.\n") :=
  ⟨C3_heuristic_exception_scope.1 (initFast true none)
      { initFast true none with Gcode := some 1 } "G1 X1. Y1.\n" rfl
      (by with_unfolding_all rfl) (by with_unfolding_all rfl),
   C3_heuristic_exception_scope.2.1 (initFast false none) "G1 Z5. F50.\n" rfl⟩

/-- C3 counterexample: group 1 hits the heuristic exception (its rapid-move
state exits disabled), yet group 2 of the same setup re-enters with the
rewriter enabled and actually rewrites its Z-only move to a rapid. -/
theorem C3_counterexample :
    (postProcessSetupSplit exCfgF [exGroup exFragA, exGroup exFragB]).msg = none ∧
    (postProcessSetupSplit exCfgF [exGroup exFragA, exGroup exFragB]).gs.map
      (fun gg => (gg.fastEntry.fFastZ, gg.fastExit.fFastZ)) =
      [(true, false), (true, true)] ∧
    String.join ((postProcessSetupSplit exCfgF
        [exGroup exFragA, exGroup exFragB]).disk.head.getD []) =
      "(T1 D=3)\n(T2 D=4)\nT1 M6\nG1 X1. Y1.\nG1 Z10. F50.\nT2 M6\nG00 Z5.0 (Changed from: \"G1 Z5. F50.\")\nM30\n" := by
  refine ⟨rfl, ?_, ?_⟩ <;> with_unfolding_all rfl

/-- C4 (amended): the rapid-move tracking state is re-initialised at EVERY
operation group (current Z, feed-height estimate, feed rate, motion mode and
lock flag all reset); only the previous-Z tracker `Zlast` survives a group
boundary. In particular a feed-height estimate established in one group is
NOT in effect at the start of the next group. -/
theorem C4_fast_state_scope :
    (∀ (cfg : RunCfg) (groups : List GroupInput) (out : RunOut),
       postProcessSetupSplit cfg groups = out → out.msg = none →
       ghostChain cfg.fastZ true none none out.gs) ∧
    (∀ (fz : Bool) (zl : Option ℚ),
       (initFast fz zl).Zcur = none ∧ (initFast fz zl).Zlast = zl ∧
       (initFast fz zl).Zfeed = none ∧ (initFast fz zl).fZfeedNotSet = true ∧
       (initFast fz zl).feedCur = 0 ∧ (initFast fz zl).Gcode = none ∧
       (initFast fz zl).fNeedFeed = false ∧ (initFast fz zl).fLockSpeed = false) := by
  constructor
  · intro cfg groups out h hm
    obtain ⟨st, gs, hpg, hgs, _, _, _⟩ := run_success_spec cfg groups out h hm
    obtain ⟨_, _, hch, _, _, _⟩ :=
      processGroups_ok cfg _ _ _ groups initGState st gs hpg
    rw [hgs]
    exact hch
  · intro fz zl
    exact ⟨rfl, rfl, rfl, rfl, rfl, rfl, rfl, rfl⟩

/-- Witness for C4 at a concrete two-group fast-Z run. -/
theorem C4_fast_state_scope_witness :
    ghostChain exCfgF.fastZ true none none
      (postProcessSetupSplit exCfgF [exGroup exFragC, exGroup exFragD]).gs :=
  C4_fast_state_scope.1 exCfgF [exGroup exFragC, exGroup exFragD] _ rfl rfl

/-- C4 counterexample: group 1 ends with a feed-height estimate of 8, but
group 2 starts with no estimate at all (it is re-discovered from scratch);
only the previous-Z tracker (10) carries across the boundary. -/
theorem C4_counterexample :
    (postProcessSetupSplit exCfgF [exGroup exFragC, exGroup exFragD]).msg = none ∧
    (postProcessSetupSplit exCfgF [exGroup exFragC, exGroup exFragD]).gs.map
      (fun gg => (gg.fastEntry.Zfeed, gg.fastExit.Zfeed)) =
      [(none, some 8), (none, some 2)] ∧
    (postProcessSetupSplit exCfgF [exGroup exFragC, exGroup exFragD]).gs.map
      (fun gg => (gg.fastEntry.Zlast, gg.fastExit.Zlast)) =
      [(none, some 10), (some 10, none)] := by
  refine ⟨rfl, ?_, ?_⟩ <;> with_unfolding_all rfl

/-- C8: a reported engine failure or thrown exception fails the group
immediately with no sleep and no open attempt; when the engine succeeds but
the file never opens, the loop sleeps the initial delay, doubles it after
each failed attempt, and gives up after `max R 1` attempts with the
directory-scan message; that message names the mismatched extension whenever
the first directory entry with the expected name prefix has a different
extension. -/
theorem C8_retrieval (g : GroupInput) (opN fE oP : String) (R : Int) (d : ℚ) :
    (g.post 0 = .failed →
       retrieveLoop g opN fE oP R d 0 =
         ⟨.error (engineFalseMsg g.opTitle), [], 0⟩) ∧
    (∀ e, g.post 0 = .threw e →
       retrieveLoop g opN fE oP R d 0 =
         ⟨.error (engineThrewMsg g.opTitle e), [], 0⟩) ∧
    ((∀ k, g.post k = .ok) → (∀ k, g.openOk k = false) →
       retrieveLoop g opN fE oP R d 0 =
         ⟨.error (scanDirMsg g.listing opN fE oP),
          geomDelays d (max R.toNat 1), max R.toNat 1⟩) ∧
    (∀ n, geomDelays d (n + 1) = d :: geomDelays (d * 2) n) ∧
    (∀ f, g.listing.find? (fun f2 => startsWith opN f2) = some f →
       dropStr f opN.length ≠ fE →
       scanDirMsg g.listing opN fE oP = mismatchExtMsg (dropStr f opN.length) fE) := by
  refine ⟨?_, ?_, ?_, ?_, ?_⟩
  · intro h
    rw [retrieveLoop]
    rcases hR : R.toNat with _ | n <;> simp only [retrieveLoopN, h]
  · intro e h
    rw [retrieveLoop]
    rcases hR : R.toNat with _ | n <;> simp only [retrieveLoopN, h]
  · intro hpost hopen
    exact retrieveLoop_exhaust g opN fE oP hpost hopen R.toNat R d 0 rfl
  · intro n
    rfl
  · intro f hfind hne
    simp [scanDirMsg, hfind, hne]

/-- Witness for C8: a failing engine, an engine that never produces an
openable file, and a directory holding the file with a wrong extension. -/
theorem C8_retrieval_witness :
    retrieveLoop exGFail "8910" ".nc" "P" 3 1 0 =
      ⟨.error (engineFalseMsg exGFail.opTitle), [], 0⟩ ∧
    retrieveLoop exGStuck "8910" ".nc" "P" 3 1 0 =
      ⟨.error (scanDirMsg exGStuck.listing "8910" ".nc" "P"),
       geomDelays 1 (max (3 : Int).toNat 1), max (3 : Int).toNat 1⟩ ∧
    scanDirMsg exGStuck.listing "8910" ".nc" "P" =
      mismatchExtMsg (dropStr "8910.tap" ("8910" : String).length) ".nc" :=
  ⟨(C8_retrieval exGFail "8910" ".nc" "P" 3 1).1 rfl,
   (C8_retrieval exGStuck "8910" ".nc" "P" 3 1).2.2.1
     (fun _ => rfl) (fun _ => rfl),
   (C8_retrieval exGStuck "8910" ".nc" "P" 3 1).2.2.2.2 "8910.tap" rfl
     (by decide)⟩

/-- C9: on a Z-only linear move, with no committed feed-height estimate the
move's Z is recorded as the feed height and the move becomes a rapid; with
an estimate in place, a Z-only linear move that is upward, at or above the
feed height, or run at feed rate 0 becomes a rapid. -/
theorem C9_rapid_rewrite :
    (∀ (st : FastState) (z : ℚ) (line : String),
       st.Zcur = some z → (st.Zfeed = none ∨ st.fZfeedNotSet = true) →
       st.Gcode = some 1 →
       (fastB1 st (some z) "" line).1.Zfeed = some z ∧
       (fastB1 st (some z) "" line).1.Gcode = some 0 ∧
       (fastB1 st (some z) "" line).1.fNeedFeed = true ∧
       (fastB1 st (some z) "" line).2 = constRapidZgcode z (dropLast1 line)) ∧
    (∀ (st : FastState) (z : ℚ) (fNoMotion : Bool) (line : String) (zc zl zf : ℚ),
       st.Gcode = some 1 → st.fLockSpeed = false →
       st.Zcur = some zc → st.Zlast = some zl → st.Zfeed = some zf →
       (zc ≥ zl ∨ zc ≥ zf ∨ st.feedCur = 0) →
       fastB2 st (some z) "" fNoMotion line =
         .ok ({ st with fNeedFeed := true, Gcode := some 0 },
           constRapidZgcode zc (dropLast1 line))) := by
  constructor
  · intro st z line hzc hzf hg
    have hcond : (st.Zfeed = none ∨ st.fZfeedNotSet = true) ∧
        (st.Gcode = some 0 ∨ st.Gcode = some 1) ∧ (some z : Option ℚ) ≠ none ∧
        ("" : String) = "" := ⟨hzf, Or.inr hg, by simp, rfl⟩
    unfold fastB1
    rw [if_pos hcond]
    by_cases hzn : st.Zfeed ≠ none <;> simp [hzn, hzc, hg]
  · intro st z fNoMotion line zc zl zf hg hlock hzc hzl hzf hdisj
    have hcond : st.Gcode = some 1 ∧ ¬ st.fLockSpeed = true := ⟨hg, by simp [hlock]⟩
    simp only [fastB2, if_pos hcond, hzc, hzl, hzf, pyGe]
    by_cases h1 : zc ≥ zl
    · simp [h1, hzc]
    · have h2 : zc ≥ zf ∨ st.feedCur = 0 := hdisj.resolve_left h1
      rcases h2 with h2 | h2 <;> simp [h1, h2, hzc]

/-- Witness for C9: a discovery rewrite and an at-feed-rate-0 rewrite at
concrete states. -/
theorem C9_rapid_rewrite_witness :
    (fastB1 exStA (some 5) "" "G1 Z5. F50.\n").1.Zfeed = some 5 ∧
    (fastB1 exStA (some 5) "" "G1 Z5. F50.\n").1.Gcode = some 0 ∧
    (fastB1 exStA (some 5) "" "G1 Z5. F50.\n").1.fNeedFeed = true ∧
    (fastB1 exStA (some 5) "" "G1 Z5. F50.\n").2 =
      constRapidZgcode 5 (dropLast1 "G1 Z5. F50.\n") ∧
    fastB2 exStB (some 3) "" false "G1 Z3.\n" =
      .ok ({ exStB with fNeedFeed := true, Gcode := some 0 },
        constRapidZgcode 3 (dropLast1 "G1 Z3.\n")) :=
  ⟨(C9_rapid_rewrite.1 exStA 5 "G1 Z5. F50.\n" rfl (Or.inl rfl) rfl).1,
   (C9_rapid_rewrite.1 exStA 5 "G1 Z5. F50.\n" rfl (Or.inl rfl) rfl).2.1,
   (C9_rapid_rewrite.1 exStA 5 "G1 Z5. F50.\n" rfl (Or.inl rfl) rfl).2.2.1,
   (C9_rapid_rewrite.1 exStA 5 "G1 Z5. F50.\n" rfl (Or.inl rfl) rfl).2.2.2,
   C9_rapid_rewrite.2 exStB 3 false "G1 Z3.\n" 3 9 5 rfl rfl rfl rfl rfl
     (Or.inr (Or.inr rfl))⟩

/-- C10: a linear move with X/Y words but no Z word, reached while the
feed-height estimate is still unset, makes the heuristic compare the
current Z against the unset height: the comparison raises, the line is
copied through unchanged, and the rewriter is silently disabled from that
point on. -/
theorem C10_xy_before_feed_height
    (st : FastState) (line : String) (nm nf : Bool)
    (hfz : st.fFastZ = true)
    (hm : (parseLineR line).matched = true)
    (hz : (parseLineR line).Z = none)
    (hxy : rstripNlSpace (parseLineR line).XY ≠ "")
    (hg : scanG (findGcodes line.data) st.Gcode st.fNeedFeed = (false, nm, some 1, nf))
    (hlock : st.fLockSpeed = false)
    (hzf : st.Zfeed = none) :
    (fastZstep st line).2 = line ∧ (fastZstep st line).1.fFastZ = false := by
  have hstep : fastZstep st line =
      match fastTry st (parseLineR line) line with
      | .ok r => r
      | .error st2 => ({ st2 with fFastZ := false }, line) := by
    simp [fastZstep, hfz, hm]
  have htry : ∃ st2, fastTry st (parseLineR line) line = .error st2 := by
    simp only [fastTry, hg, hz]
    rcases hf : (parseLineR line).F with _ | fv <;>
      rcases hzc : st.Zcur with _ | zc <;>
        simp [fastB1, fastB2, pyGe, hz, hzf, hlock, hzc, hf]
  obtain ⟨st2, htry2⟩ := htry
  rw [hstep, htry2]
  exact ⟨rfl, rfl⟩

/-- Witness for C10 at a concrete XY-only first move. -/
theorem C10_xy_before_feed_height_witness :
    (fastZstep (initFast true none) "G1 X1. Y1.\n").2 = "G1 X1. Y1.\n" ∧
    (fastZstep (initFast true none) "G1 X1. Y1.\n").1.fFastZ = false :=
  C10_xy_before_feed_height (initFast true none) "G1 X1. Y1.\n" false false
    rfl (by with_unfolding_all rfl) (by with_unfolding_all rfl)
    (by with_unfolding_all decide) (by with_unfolding_all rfl) rfl rfl

end PPA
